import Mathlib

/-!
Verification of the Polymarket maker-only actor pipeline
(`src/polymarket/{inventory,coordinator,user_ws,executor}.rs`).

Shallow embedding conventions:
* `f64` values are embedded as exact rationals (`ℚ`); `f64::EPSILON`
  is the explicit constant `2⁻⁵²`.
* `Instant` timestamps are rationals measured in milliseconds.
* Stateful actor methods become pure functions
  `state → input → state × emitted-messages`.
* The dedup cache (a TTL+LRU bounded map in the source) is modelled as the
  set of remembered keys; the claims about it are stated for the regime in
  which no entry has expired and capacity is not exceeded, where the source's
  `remember` degenerates to exactly this set-insert behaviour.
-/

namespace PolymarketMM

/-- Outcome token identity (`types.rs::Side`). -/
inductive Side where
  | yes
  | no
deriving DecidableEq, Repr

/-- Fill status from the exchange (`messages.rs::FillStatus`). -/
inductive FillStatus where
  | matched
  | confirmed
  | failed
deriving DecidableEq, Repr

/-- A normalized fill from the authenticated user stream
(`messages.rs::FillEvent`, without the `Instant` timestamp). -/
structure FillEvent where
  order_id : String
  side : Side
  filled_size : ℚ
  price : ℚ
  status : FillStatus
deriving DecidableEq, Repr

/-- Rust `f64::EPSILON = 2.220446049250313e-16 = 2⁻⁵²`. -/
def eps64 : ℚ := 1 / 2 ^ 52

-- ─────────────────────────────────────────────────────────
-- Inventory Manager (`inventory.rs`)
-- ─────────────────────────────────────────────────────────

/-- Rust `inventory.rs::InventoryConfig`. -/
structure InventoryConfig where
  max_net_diff : ℚ
  max_portfolio_cost : ℚ
  max_position_value : ℚ
deriving DecidableEq, Repr

/-- Rust `InventoryConfig::default()`. -/
def InventoryConfig.default : InventoryConfig :=
  { max_net_diff := 10, max_portfolio_cost := 102/100, max_position_value := 5 }

/-- Rust `messages.rs::InventoryState`. -/
structure InventoryState where
  yes_qty : ℚ
  no_qty : ℚ
  yes_avg_cost : ℚ
  no_avg_cost : ℚ
  net_diff : ℚ
  portfolio_cost : ℚ
  can_open : Bool
deriving DecidableEq, Repr

/-- Rust `InventoryState::default()`. -/
def InventoryState.default : InventoryState :=
  { yes_qty := 0, no_qty := 0, yes_avg_cost := 0, no_avg_cost := 0,
    net_diff := 0, portfolio_cost := 0, can_open := true }

/-- Rust `InventoryManager::can_open` (three admission tests). -/
def can_open (cfg : InventoryConfig) (st : InventoryState) : Bool :=
  let net_ok := |st.net_diff| < cfg.max_net_diff
  let cost_ok := st.portfolio_cost < cfg.max_portfolio_cost ∨ st.portfolio_cost = 0
  let yes_value := st.yes_qty * st.yes_avg_cost
  let no_value := st.no_qty * st.no_avg_cost
  let value_ok := yes_value < cfg.max_position_value ∧ no_value < cfg.max_position_value
  decide net_ok && decide cost_ok && decide value_ok

/-- Rust `InventoryManager::apply_fill`.  The VWAP update uses the *new* quantity;
the average cost is reset to zero whenever the new quantity drops below
`f64::EPSILON`; derived fields are recomputed afterwards. -/
def apply_fill (cfg : InventoryConfig) (st : InventoryState) (fill : FillEvent) :
    InventoryState :=
  let multiplier : ℚ := match fill.status with
    | .matched | .confirmed => 1
    | .failed => -1
  let delta := fill.filled_size * multiplier
  let st :=
    match fill.side with
    | .yes =>
      let old_q := st.yes_qty
      let old_avg := st.yes_avg_cost
      let new_q := max (old_q + delta) 0
      let new_avg :=
        if 0 < delta ∧ 0 < new_q then
          (old_q * old_avg + fill.filled_size * fill.price) / new_q
        else old_avg
      let new_avg := if new_q < eps64 then 0 else new_avg
      { st with yes_qty := new_q, yes_avg_cost := new_avg }
    | .no =>
      let old_q := st.no_qty
      let old_avg := st.no_avg_cost
      let new_q := max (old_q + delta) 0
      let new_avg :=
        if 0 < delta ∧ 0 < new_q then
          (old_q * old_avg + fill.filled_size * fill.price) / new_q
        else old_avg
      let new_avg := if new_q < eps64 then 0 else new_avg
      { st with no_qty := new_q, no_avg_cost := new_avg }
  let st := { st with net_diff := st.yes_qty - st.no_qty }
  let st := { st with
    portfolio_cost :=
      if 0 < st.yes_qty ∧ 0 < st.no_qty then st.yes_avg_cost + st.no_avg_cost
      else 0 }
  { st with can_open := can_open cfg st }

/-- Serial application of a fill stream starting from the flat initial state
(the `InventoryManager::run` receive loop). -/
def applyFills (cfg : InventoryConfig) (fills : List FillEvent) : InventoryState :=
  fills.foldl (apply_fill cfg) InventoryState.default

-- ─────────────────────────────────────────────────────────
-- Strategy Coordinator (`coordinator.rs`)
-- ─────────────────────────────────────────────────────────

/-- Rust `coordinator.rs::CoordinatorConfig`. -/
structure CoordinatorConfig where
  pair_target : ℚ
  max_net_diff : ℚ
  bid_size : ℚ
  tick_size : ℚ
  reprice_threshold : ℚ
  debounce_ms : ℚ
  dry_run : Bool
deriving DecidableEq, Repr

/-- Per-side coordinator bid state (`coordinator.rs::BidSlot`);
`last_placed` is a timestamp in milliseconds. -/
structure BidSlot where
  active : Bool
  price : ℚ
  last_placed : ℚ
deriving DecidableEq, Repr

/-- Rust `BidSlot::default()` relative to a start time `now0`:
`last_placed` starts 60 seconds in the past so the first bid
is not debounced. -/
def BidSlot.default (now0 : ℚ) : BidSlot :=
  { active := false, price := 0, last_placed := now0 - 60000 }

/-- Top-of-book prices (`coordinator.rs::Book`). -/
structure Book where
  yes_bid : ℚ
  yes_ask : ℚ
  no_bid : ℚ
  no_ask : ℚ
deriving DecidableEq, Repr

/-- Rust `Book::default()`: all zero. -/
def Book.default : Book := { yes_bid := 0, yes_ask := 0, no_bid := 0, no_ask := 0 }

/-- Rust `messages.rs::SideOfi`. -/
structure SideOfi where
  ofi_score : ℚ
  buy_volume : ℚ
  sell_volume : ℚ
  is_toxic : Bool
deriving DecidableEq, Repr

/-- Rust `SideOfi::default()`. -/
def SideOfi.default : SideOfi :=
  { ofi_score := 0, buy_volume := 0, sell_volume := 0, is_toxic := false }

/-- Rust `messages.rs::OfiSnapshot` (timestamp omitted). -/
structure OfiSnapshot where
  yes : SideOfi
  no : SideOfi
deriving DecidableEq, Repr

/-- Rust `messages.rs::BidReason`. -/
inductive BidReason where
  | provide
  | hedge
deriving DecidableEq, Repr

/-- Rust `messages.rs::CancelReason`. -/
inductive CancelReason where
  | toxicFlow
  | inventoryLimit
  | reprice
  | shutdown
  | marketExpired
deriving DecidableEq, Repr

/-- Rust `messages.rs::ExecutionCmd`. -/
inductive ExecutionCmd where
  | placePostOnlyBid (side : Side) (price : ℚ) (size : ℚ) (reason : BidReason)
  | cancelOrder (order_id : String) (reason : CancelReason)
  | cancelSide (side : Side) (reason : CancelReason)
  | cancelAll (reason : CancelReason)
deriving DecidableEq, Repr

/-- The coordinator's mutable state (book, fallback book, two bid slots). -/
structure CoordState where
  book : Book
  last_valid_book : Book
  yes_bid : BidSlot
  no_bid : BidSlot
deriving DecidableEq, Repr

/-- Fresh coordinator state at start time `now0`
(`StrategyCoordinator::new`). -/
def CoordState.init (now0 : ℚ) : CoordState :=
  { book := Book.default, last_valid_book := Book.default,
    yes_bid := BidSlot.default now0, no_bid := BidSlot.default now0 }

/-- Read the slot for a side. -/
def CoordState.slot (st : CoordState) : Side → BidSlot
  | .yes => st.yes_bid
  | .no => st.no_bid

/-- Replace the slot for a side. -/
def CoordState.setSlot (st : CoordState) : Side → BidSlot → CoordState
  | .yes, s => { st with yes_bid := s }
  | .no, s => { st with no_bid := s }

/-- Rust `StrategyCoordinator::update_book`: store the raw tick and refresh the
per-side fallback only when both of that side's prices are positive. -/
def update_book (st : CoordState) (yb ya nb na : ℚ) : CoordState :=
  let st := { st with book := { yes_bid := yb, yes_ask := ya, no_bid := nb, no_ask := na } }
  let st :=
    if 0 < yb ∧ 0 < ya then
      { st with last_valid_book :=
        { st.last_valid_book with yes_bid := yb, yes_ask := ya } }
    else st
  if 0 < nb ∧ 0 < na then
    { st with last_valid_book :=
      { st.last_valid_book with no_bid := nb, no_ask := na } }
  else st

/-- Rust `StrategyCoordinator::usable_book`: component-wise current-if-positive
else last-valid fallback. -/
def usable_book (st : CoordState) : Book :=
  { yes_bid := if 0 < st.book.yes_bid then st.book.yes_bid else st.last_valid_book.yes_bid,
    yes_ask := if 0 < st.book.yes_ask then st.book.yes_ask else st.last_valid_book.yes_ask,
    no_bid := if 0 < st.book.no_bid then st.book.no_bid else st.last_valid_book.no_bid,
    no_ask := if 0 < st.book.no_ask then st.book.no_ask else st.last_valid_book.no_ask }

/-- Rust `StrategyCoordinator::safe_price`: floor to a multiple of the tick, then
clamp into `[0.001, 0.999]`. -/
def safe_price (cfg : CoordinatorConfig) (p : ℚ) : ℚ :=
  let floored := (⌊p / cfg.tick_size⌋ : ℚ) * cfg.tick_size
  min (max floored (1/1000)) (999/1000)

/-- Rust `StrategyCoordinator::aggressive_price`:
`min(ceiling, best_ask − tick)` through `safe_price`, refusing (returning 0)
when the ceiling is out of `(0,1)`, the ask is unavailable, or one tick below
the ask is not positive. -/
def aggressive_price (cfg : CoordinatorConfig) (ceiling best_ask : ℚ) : ℚ :=
  if ceiling ≤ 0 ∨ 1 ≤ ceiling then 0
  else if best_ask ≤ 0 then 0
  else
    let one_tick_below := best_ask - cfg.tick_size
    if one_tick_below ≤ 0 then 0
    else safe_price cfg (min ceiling one_tick_below)

/-- Rust `StrategyCoordinator::place`: mark the slot active at the given price and
time; emit `PlacePostOnlyBid` only when not in dry-run. -/
def place (cfg : CoordinatorConfig) (st : CoordState) (side : Side) (price : ℚ)
    (reason : BidReason) (now : ℚ) : CoordState × List ExecutionCmd :=
  let st := st.setSlot side { active := true, price := price, last_placed := now }
  if cfg.dry_run then (st, [])
  else (st, [.placePostOnlyBid side price cfg.bid_size reason])

/-- Rust `StrategyCoordinator::cancel`: clear the slot; emit `CancelSide` only when
not in dry-run. -/
def cancel (cfg : CoordinatorConfig) (st : CoordState) (side : Side)
    (reason : CancelReason) : CoordState × List ExecutionCmd :=
  let slot := st.slot side
  let st := st.setSlot side { active := false, price := 0, last_placed := slot.last_placed }
  if cfg.dry_run then (st, [])
  else (st, [.cancelSide side reason])

/-- Rust `StrategyCoordinator::place_or_reprice`: debounce, then place if the slot
is inactive, or cancel-and-replace if the price drifted beyond the reprice
threshold. -/
def place_or_reprice (cfg : CoordinatorConfig) (st : CoordState) (side : Side)
    (price : ℚ) (reason : BidReason) (now : ℚ) : CoordState × List ExecutionCmd :=
  let slot := st.slot side
  if now - slot.last_placed < cfg.debounce_ms then (st, [])
  else if ¬ slot.active then place cfg st side price reason now
  else if cfg.reprice_threshold < |slot.price - price| then
    let r1 := cancel cfg st side .reprice
    let r2 := place cfg r1.1 side price reason now
    (r2.1, r1.2 ++ r2.2)
  else (st, [])

/-- Rust `StrategyCoordinator::global_kill_switch`: cancel both sides' active bids
with reason `ToxicFlow`. -/
def global_kill_switch (cfg : CoordinatorConfig) (st : CoordState) :
    CoordState × List ExecutionCmd :=
  let r1 := if st.yes_bid.active then cancel cfg st .yes .toxicFlow else (st, [])
  let r2 := if r1.1.no_bid.active then cancel cfg r1.1 .no .toxicFlow else (r1.1, [])
  (r2.1, r1.2 ++ r2.2)

/-- The raw (pre-`safe_price`) balanced bid pair: quote the mids; if their sum
exceeds `pair_target`, subtract half the excess from each. -/
def balanced_raw (cfg : CoordinatorConfig) (ub : Book) : ℚ × ℚ :=
  let mid_yes := (ub.yes_bid + ub.yes_ask) / 2
  let mid_no := (ub.no_bid + ub.no_ask) / 2
  if mid_yes + mid_no ≤ cfg.pair_target then (mid_yes, mid_no)
  else
    let excess := (mid_yes + mid_no) - cfg.pair_target
    (mid_yes - excess / 2, mid_no - excess / 2)

/-- Rust `StrategyCoordinator::state_balanced`: inventory gate with tiered cancel,
otherwise quote `safe_price` of the capped mids on both sides. -/
def state_balanced (cfg : CoordinatorConfig) (st : CoordState)
    (inv : InventoryState) (ub : Book) (now : ℚ) : CoordState × List ExecutionCmd :=
  if ¬ inv.can_open then
    if |inv.net_diff| < 1/1000 then
      let r1 := if st.yes_bid.active then cancel cfg st .yes .inventoryLimit else (st, [])
      let r2 :=
        if r1.1.no_bid.active then cancel cfg r1.1 .no .inventoryLimit else (r1.1, [])
      (r2.1, r1.2 ++ r2.2)
    else
      let risky_side : Side := if 0 < inv.net_diff then .yes else .no
      if (st.slot risky_side).active then cancel cfg st risky_side .inventoryLimit
      else (st, [])
  else
    let raw := balanced_raw cfg ub
    let bid_yes := safe_price cfg raw.1
    let bid_no := safe_price cfg raw.2
    let r1 := place_or_reprice cfg st .yes bid_yes .provide now
    let r2 := place_or_reprice cfg r1.1 .no bid_no .provide now
    (r2.1, r1.2 ++ r2.2)

/-- Rust `StrategyCoordinator::state_hedge`: cancel the excess side's active bid,
then bid the deficit side at the aggressive price when it is positive. -/
def state_hedge (cfg : CoordinatorConfig) (st : CoordState)
    (inv : InventoryState) (ub : Book) (now : ℚ) : CoordState × List ExecutionCmd :=
  if 0 < inv.net_diff then
    let r1 := if st.yes_bid.active then cancel cfg st .yes .inventoryLimit else (st, [])
    let ceiling := cfg.pair_target - inv.yes_avg_cost
    let price := aggressive_price cfg ceiling ub.no_ask
    if 0 < price then
      let r2 := place_or_reprice cfg r1.1 .no price .hedge now
      (r2.1, r1.2 ++ r2.2)
    else (r1.1, r1.2)
  else
    let r1 := if st.no_bid.active then cancel cfg st .no .inventoryLimit else (st, [])
    let ceiling := cfg.pair_target - inv.no_avg_cost
    let price := aggressive_price cfg ceiling ub.yes_ask
    if 0 < price then
      let r2 := place_or_reprice cfg r1.1 .yes price .hedge now
      (r2.1, r1.2 ++ r2.2)
    else (r1.1, r1.2)

/-- Rust `StrategyCoordinator::tick`: kill switch first, then the empty-book guard,
then branch on `|net_diff| < f64::EPSILON` into Balanced or Hedge. -/
def tick (cfg : CoordinatorConfig) (st : CoordState) (ofi : OfiSnapshot)
    (inv : InventoryState) (now : ℚ) : CoordState × List ExecutionCmd :=
  if ofi.yes.is_toxic || ofi.no.is_toxic then global_kill_switch cfg st
  else
    let ub := usable_book st
    if ub.yes_bid ≤ 0 ∨ ub.no_bid ≤ 0 then (st, [])
    else if |inv.net_diff| < eps64 then state_balanced cfg st inv ub now
    else state_hedge cfg st inv ub now

/-- One `MarketDataMsg::BookTick` handled by the coordinator run loop:
`update_book` followed by `tick`. -/
def handleBookTick (cfg : CoordinatorConfig) (st : CoordState)
    (yb ya nb na : ℚ) (ofi : OfiSnapshot) (inv : InventoryState) (now : ℚ) :
    CoordState × List ExecutionCmd :=
  tick cfg (update_book st yb ya nb na) ofi inv now

-- ─────────────────────────────────────────────────────────
-- User Fill Listener (`user_ws.rs`)
-- ─────────────────────────────────────────────────────────

/-- Parser-relevant part of `user_ws.rs::UserWsConfig`. -/
structure UserWsConfig where
  api_key : String
  yes_asset_id : String
  no_asset_id : String
deriving DecidableEq, Repr

/-- ASCII lower-casing of one character (Rust `eq_ignore_ascii_case` /
`to_lowercase` on the ASCII keys this module compares). -/
def lowerChar (c : Char) : Char :=
  if 'A' ≤ c ∧ c ≤ 'Z' then Char.ofNat (c.toNat + 32) else c

/-- ASCII lower-casing of a string. -/
def lowerStr (s : String) : String := String.mk (s.data.map lowerChar)

/-- ASCII whitespace (Rust `str::trim`). -/
def isWsChar (c : Char) : Bool := c = ' ' || c = '\t' || c = '\n' || c = '\r'

/-- Rust `str::trim`: strip whitespace from both ends. -/
def trimStr (s : String) : String :=
  String.mk (((s.data.dropWhile (isWsChar ·)).reverse.dropWhile (isWsChar ·)).reverse)

/-- Rust `user_ws.rs::value_component` restricted to string scalars: trim and
reject empty (JSON number scalars are modelled as their rendered text). -/
def value_component (s : String) : Option String :=
  let t := trimStr s
  if t = "" then none else some t

/-- The event-identity candidate fields of `user_ws.rs::event_identity`
other than `id` (in the source's probe order). -/
structure IdentFields where
  trade_id : Option String
  match_id : Option String
  tx_hash : Option String
  transaction_hash : Option String
  timestamp : Option String
  time : Option String
  created_at : Option String
  updated_at : Option String
  nonce : Option String
deriving DecidableEq, Repr

/-- All identity fields absent. -/
def IdentFields.none : IdentFields :=
  { trade_id := Option.none, match_id := Option.none, tx_hash := Option.none,
    transaction_hash := Option.none, timestamp := Option.none, time := Option.none,
    created_at := Option.none, updated_at := Option.none, nonce := Option.none }

/-- Render one probed field as `name=value` when it carries a usable scalar. -/
def ident_entry (name : String) (v : Option String) : Option String :=
  (v.bind value_component).map (fun s => name ++ "=" ++ s)

/-- Rust `user_ws.rs::event_identity`: first usable field among
`id, trade_id, match_id, tx_hash, transaction_hash, timestamp, time,
created_at, updated_at, nonce`. -/
def event_identity (id : Option String) (f : IdentFields) : Option String :=
  ident_entry "id" id <|> ident_entry "trade_id" f.trade_id <|>
  ident_entry "match_id" f.match_id <|> ident_entry "tx_hash" f.tx_hash <|>
  ident_entry "transaction_hash" f.transaction_hash <|>
  ident_entry "timestamp" f.timestamp <|> ident_entry "time" f.time <|>
  ident_entry "created_at" f.created_at <|> ident_entry "updated_at" f.updated_at <|>
  ident_entry "nonce" f.nonce

/-- One entry of `maker_orders[]` as the parser reads it (numeric fields
already decoded from string-or-number JSON, mirroring `parse_f64_field` and
the `to_string().trim_matches('"')` normalization of `asset_id`). -/
structure MakerOrder where
  owner : Option String
  asset_id : Option String
  outcome : Option String
  matched_amount : Option ℚ
  size : Option ℚ
  price : Option ℚ
  order_id : Option String
  id : Option String
  idents : IdentFields
deriving DecidableEq, Repr

/-- A user-channel trade message as the parser reads it (`event_type` and
`type` are both probed; numeric fields already decoded). -/
structure TradeMsg where
  event_type : Option String
  type_alt : Option String
  status : Option String
  trader_side : Option String
  maker_orders : Option (List MakerOrder)
  asset_id : Option String
  size : Option ℚ
  price : Option ℚ
  taker_order_id : Option String
  order_id : Option String
  id : Option String
  idents : IdentFields
deriving DecidableEq, Repr

/-- Rust `user_ws.rs::DedupCache::remember` in the regime where no entry has
expired (within TTL) and capacity is not exceeded: pure first-seen check.
Returns whether the key was fresh, plus the updated key set. -/
def remember (cache : List String) (key : String) : Bool × List String :=
  if key ∈ cache then (false, cache) else (true, key :: cache)

/-- Rust `user_ws.rs::dedup_bucket`: Matched and Confirmed collapse to one
`SUCCESS` bucket; Failed is its own bucket. -/
def dedup_bucket : FillStatus → String
  | .matched | .confirmed => "SUCCESS"
  | .failed => "FAILED"

/-- Status mapping of `parse_trade_event`: `MATCHED` → Matched,
`MINED`/`CONFIRMED` → Confirmed, `FAILED` → Failed; `RETRYING` and anything
else is dropped. -/
def parse_status (s : String) : Option FillStatus :=
  if s = "MATCHED" then some .matched
  else if s = "MINED" ∨ s = "CONFIRMED" then some .confirmed
  else if s = "FAILED" then some .failed
  else none

/-- Dedup key of the maker path when a trade-level id is present. -/
def maker_dedup_key (trade_id order_id bucket : String) : String :=
  "tid:" ++ trade_id ++ ":mo:" ++ order_id ++ ":" ++ bucket

/-- Dedup key of the taker path when a trade-level id is present
(note: no order id). -/
def taker_dedup_key (trade_id bucket : String) : String :=
  "tid:" ++ trade_id ++ ":" ++ bucket

/-- Stand-in for the `{:.8}` rendering of an `f64` in the no-trade-id keys;
only injectivity-by-content and determinism matter for the stated claims. -/
def fmt8 (q : ℚ) : String := toString q

/-- What `parse_maker_fills` does with a single `maker_orders[]` entry
before consulting the dedup cache. -/
inductive MakerDecision where
  | skip
  | check (key : String) (fill : FillEvent)
deriving DecidableEq, Repr

/-- The per-entry logic of `parse_maker_fills`: owner filter, asset-id /
outcome side mapping, size/price validation, then dedup-key construction. -/
def maker_decision (cfg : UserWsConfig) (status : FillStatus)
    (trade_id evt : String) (mo : MakerOrder) : MakerDecision :=
  let owner := lowerStr (trimStr (mo.owner.getD ""))
  if owner = "" then .skip
  else if owner ≠ lowerStr (trimStr cfg.api_key) then .skip
  else
    let asset_str := mo.asset_id.getD ""
    let side? : Option Side :=
      if asset_str = cfg.yes_asset_id then some .yes
      else if asset_str = cfg.no_asset_id then some .no
      else
        match mo.outcome.getD "" with
        | "Yes" | "yes" | "YES" => some .yes
        | "No" | "no" | "NO" => some .no
        | _ => none
    match side? with
    | none => .skip
    | some side =>
      let size := (mo.matched_amount <|> mo.size).getD 0
      let price := mo.price.getD 0
      if size ≤ 0 ∨ price ≤ 0 then .skip
      else
        let order_id := mo.order_id.getD "unknown"
        let bucket := dedup_bucket status
        let key :=
          if trade_id ≠ "" then maker_dedup_key trade_id order_id bucket
          else
            let maker_evt := (event_identity mo.id mo.idents).getD "mo_evt=none"
            "mo:" ++ order_id ++ ":" ++ bucket ++ ":" ++ fmt8 price ++ ":" ++
              fmt8 size ++ ":" ++ evt ++ ":" ++ maker_evt
        .check key
          { order_id := order_id, side := side, filled_size := size,
            price := price, status := status }

/-- The `maker_orders[]` loop of `parse_maker_fills`, threading the dedup
cache; a fill is emitted only when its key was fresh. -/
def maker_loop (cfg : UserWsConfig) (status : FillStatus) (trade_id evt : String)
    (mos : List MakerOrder) (cache : List String) : List FillEvent × List String :=
  match mos with
  | [] => ([], cache)
  | mo :: rest =>
    match maker_decision cfg status trade_id evt mo with
    | .skip => maker_loop cfg status trade_id evt rest cache
    | .check key fill =>
      match remember cache key with
      | (fresh, cache') =>
        if fresh then
          let r := maker_loop cfg status trade_id evt rest cache'
          (fill :: r.1, r.2)
        else maker_loop cfg status trade_id evt rest cache'

/-- Rust `UserWsListener::parse_maker_fills`. -/
def parse_maker_fills (cfg : UserWsConfig) (msg : TradeMsg) (status : FillStatus)
    (cache : List String) : List FillEvent × List String :=
  match msg.maker_orders with
  | none => ([], cache)
  | some mos =>
    let trade_id := msg.id.getD ""
    let evt := (event_identity msg.id msg.idents).getD "evt=none"
    maker_loop cfg status trade_id evt mos cache

/-- The pre-dedup logic of `parse_taker_fill`: side mapping from the
top-level `asset_id`, size/price validation, then dedup-key construction. -/
def taker_decision (cfg : UserWsConfig) (msg : TradeMsg) (status : FillStatus) :
    Option (String × FillEvent) :=
  match msg.asset_id with
  | none => none
  | some asset_id =>
    let side? : Option Side :=
      if asset_id = cfg.yes_asset_id then some .yes
      else if asset_id = cfg.no_asset_id then some .no
      else none
    match side? with
    | none => none
    | some side =>
      match msg.size, msg.price with
      | some size, some price =>
        if size ≤ 0 ∨ price ≤ 0 then none
        else
          let order_id := (msg.taker_order_id <|> msg.order_id).getD "unknown"
          let trade_id := msg.id.getD ""
          let bucket := dedup_bucket status
          let key :=
            if trade_id ≠ "" then taker_dedup_key trade_id bucket
            else
              let evt := (event_identity msg.id msg.idents).getD "evt=none"
              "oid:" ++ order_id ++ ":" ++ bucket ++ ":" ++ fmt8 price ++ ":" ++
                fmt8 size ++ ":" ++ evt
          some (key,
            { order_id := order_id, side := side, filled_size := size,
              price := price, status := status })
      | _, _ => none

/-- Rust `UserWsListener::parse_taker_fill`. -/
def parse_taker_fill (cfg : UserWsConfig) (msg : TradeMsg) (status : FillStatus)
    (cache : List String) : Option FillEvent × List String :=
  match taker_decision cfg msg status with
  | none => (none, cache)
  | some (key, fill) =>
    match remember cache key with
    | (fresh, cache') => if fresh then (some fill, cache') else (none, cache')

/-- Rust `UserWsListener::parse_trade_event`: event-type gate, status mapping,
then maker-first routing (never falling through from an empty maker result
to the taker path). -/
def parse_trade_event (cfg : UserWsConfig) (msg : TradeMsg)
    (cache : List String) : List FillEvent × List String :=
  let event_type := (msg.event_type <|> msg.type_alt).getD ""
  if ¬ (lowerStr event_type = "trade") then ([], cache)
  else
    match parse_status (msg.status.getD "UNKNOWN") with
    | none => ([], cache)
    | some status =>
      let trader_side := msg.trader_side.getD ""
      let has_maker_orders := ((msg.maker_orders.getD []).isEmpty = false)
      if lowerStr trader_side = "maker" ∨ (trader_side = "" ∧ has_maker_orders) then
        parse_maker_fills cfg msg status cache
      else
        match parse_taker_fill cfg msg status cache with
        | (some fill, cache') => ([fill], cache')
        | (none, cache') => ([], cache')

/-- A stream of trade messages fed through one shared dedup cache
(the `connect_and_listen` read loop, possibly across reconnects). -/
def runMsgs (cfg : UserWsConfig) (msgs : List TradeMsg) (cache : List String) :
    List FillEvent × List String :=
  match msgs with
  | [] => ([], cache)
  | m :: rest =>
    let r1 := parse_trade_event cfg m cache
    let r2 := runMsgs cfg rest r1.2
    (r1.1 ++ r2.1, r2.2)

-- ─────────────────────────────────────────────────────────
-- Executor (`executor.rs`)
-- ─────────────────────────────────────────────────────────

/-- Rust `executor.rs::ExecutorConfig` (token ids elided; `has_client` models
whether `client` is `Some` — the dry code path triggers on
`dry_run || client.is_none()`). -/
structure ExecutorConfig where
  dry_run : Bool
  has_client : Bool
deriving DecidableEq, Repr

/-- Rust `messages.rs::OrderResult`. -/
inductive OrderResult where
  | orderFailed (side : Side)
deriving DecidableEq, Repr

/-- Outcomes of the external exchange calls made while handling one command,
plus the clock reading used for the dry-run fake order id:
`place_result = some id` models a successful `post_order` with status
Live/Matched; `none` models rejection or transport error. -/
structure ExecEnv where
  place_result : Option String
  cancel_ok : String → Bool
  cancel_all_ok : Bool
  /-- The rendered `Instant::now().elapsed().as_nanos()` reading used in the
  dry-run fake order id. -/
  dry_nonce : String

/-- The Executor's per-side open-order map `order_id → remaining_size`,
modelled as association lists with unique keys. -/
structure ExecState where
  yes_orders : List (String × ℚ)
  no_orders : List (String × ℚ)
deriving DecidableEq, Repr

/-- Both sides start empty (`Executor::new`). -/
def ExecState.init : ExecState := { yes_orders := [], no_orders := [] }

/-- Open orders of one side. -/
def ordersOf (st : ExecState) : Side → List (String × ℚ)
  | .yes => st.yes_orders
  | .no => st.no_orders

/-- Replace one side's open orders. -/
def withOrders (st : ExecState) : Side → List (String × ℚ) → ExecState
  | .yes, l => { st with yes_orders := l }
  | .no, l => { st with no_orders := l }

/-- Rust `HashMap::remove`. -/
def removeKey (k : String) (l : List (String × ℚ)) : List (String × ℚ) :=
  l.filter (fun e => e.1 ≠ k)

/-- Rust `HashMap::insert` (replaces an existing entry for the key). -/
def insertOrder (k : String) (v : ℚ) (l : List (String × ℚ)) : List (String × ℚ) :=
  (k, v) :: removeKey k l

/-- In-place `*remaining -= fill` rewrite of one entry. -/
def setRemaining (k : String) (v : ℚ) (l : List (String × ℚ)) : List (String × ℚ) :=
  l.map (fun e => if e.1 = k then (k, v) else e)

/-- Rust `Executor::handle_fill_notification`: Failed removes the order outright;
Matched/Confirmed decrement the remaining size and remove once it is ≤ 0. -/
def handle_fill_notification (st : ExecState) (fill : FillEvent) : ExecState :=
  if fill.status = .failed then
    withOrders st fill.side (removeKey fill.order_id (ordersOf st fill.side))
  else
    let orders := ordersOf st fill.side
    match orders.lookup fill.order_id with
    | none => st
    | some remaining =>
      let remaining := remaining - fill.filled_size
      if remaining ≤ 0 then withOrders st fill.side (removeKey fill.order_id orders)
      else withOrders st fill.side (setRemaining fill.order_id remaining orders)

/-- The `{:?}` rendering of a `Side` used in dry-run fake order ids. -/
def sideName : Side → String
  | .yes => "Yes"
  | .no => "No"

/-- Rust `Executor::handle_place_bid`.  NOTE the source's branch order: the
dry-run path inserts a fake tracked order *before* the non-empty-side
refusal guard is reached; only the live path refuses stacking. -/
def handle_place_bid (cfg : ExecutorConfig) (st : ExecState) (side : Side)
    (_price size : ℚ) (_reason : BidReason) (env : ExecEnv) :
    ExecState × List OrderResult :=
  if cfg.dry_run || !cfg.has_client then
    let fake_id := "dry-" ++ sideName side ++ "-" ++ env.dry_nonce
    (withOrders st side (insertOrder fake_id size (ordersOf st side)), [])
  else if !(ordersOf st side).isEmpty then
    (st, [.orderFailed side])
  else
    match env.place_result with
    | some order_id =>
      (withOrders st side (insertOrder order_id size (ordersOf st side)), [])
    | none => (st, [.orderFailed side])

/-- Remove an order id from both sides' maps. -/
def removeEverywhere (st : ExecState) (order_id : String) : ExecState :=
  { yes_orders := removeKey order_id st.yes_orders,
    no_orders := removeKey order_id st.no_orders }

/-- Rust `Executor::handle_cancel_order`: dry path removes locally; live path
removes only when the remote cancel succeeded, else keeps tracking. -/
def handle_cancel_order (cfg : ExecutorConfig) (st : ExecState)
    (order_id : String) (env : ExecEnv) : ExecState × Bool :=
  if cfg.dry_run || !cfg.has_client then (removeEverywhere st order_id, true)
  else if env.cancel_ok order_id then (removeEverywhere st order_id, true)
  else (st, false)

/-- Rust `Executor::handle_cancel_side`: snapshot the side's order ids and cancel
each. -/
def handle_cancel_side (cfg : ExecutorConfig) (st : ExecState) (side : Side)
    (env : ExecEnv) : ExecState :=
  let ids := (ordersOf st side).map Prod.fst
  ids.foldl (fun s id => (handle_cancel_order cfg s id env).1) st

/-- Rust `Executor::handle_cancel_all`: bulk clear on the dry path or on remote
success; on remote failure fall back to per-order cancels. -/
def handle_cancel_all (cfg : ExecutorConfig) (st : ExecState) (env : ExecEnv) :
    ExecState :=
  if cfg.dry_run || !cfg.has_client then { yes_orders := [], no_orders := [] }
  else if env.cancel_all_ok then { yes_orders := [], no_orders := [] }
  else
    let ids := st.yes_orders.map Prod.fst ++ st.no_orders.map Prod.fst
    ids.foldl (fun s id => (handle_cancel_order cfg s id env).1) st

/-- One input to the Executor's select loop: a command (with that command's
external outcomes) or a fill notification. -/
inductive ExecEvent where
  | cmd (c : ExecutionCmd) (env : ExecEnv)
  | fill (f : FillEvent)

/-- Dispatch of `Executor::run`. -/
def execStep (cfg : ExecutorConfig) (st : ExecState) (ev : ExecEvent) :
    ExecState × List OrderResult :=
  match ev with
  | .cmd (.placePostOnlyBid side price size reason) env =>
    handle_place_bid cfg st side price size reason env
  | .cmd (.cancelOrder order_id _reason) env =>
    ((handle_cancel_order cfg st order_id env).1, [])
  | .cmd (.cancelSide side _reason) env => (handle_cancel_side cfg st side env, [])
  | .cmd (.cancelAll _reason) env => (handle_cancel_all cfg st env, [])
  | .fill f => (handle_fill_notification st f, [])

/-- The Executor's state after a sequence of events. -/
def runExec (cfg : ExecutorConfig) (events : List ExecEvent) (st : ExecState) :
    ExecState :=
  events.foldl (fun s e => (execStep cfg s e).1) st

-- ─────────────────────────────────────────────────────────
-- Concrete test fixtures
-- ─────────────────────────────────────────────────────────

/-- The coordinator test configuration (`coordinator.rs` tests `cfg()`),
except that the 200 ms debounce of the production default is kept. -/
def testCfg : CoordinatorConfig :=
  { pair_target := 98/100, max_net_diff := 10, bid_size := 2,
    tick_size := 1/100, reprice_threshold := 5/1000, debounce_ms := 200,
    dry_run := false }

/-- Rust `OfiSnapshot::default()`: both sides benign. -/
def OfiSnapshot.default : OfiSnapshot :=
  { yes := SideOfi.default, no := SideOfi.default }

/-- Rust `testCfg` with `dry_run` switched on. -/
def dryTestCfg : CoordinatorConfig := { testCfg with dry_run := true }

/-- The tick-floored value before clamping (the first step of
`safe_price`). -/
def floorTick (cfg : CoordinatorConfig) (p : ℚ) : ℚ :=
  (⌊p / cfg.tick_size⌋ : ℚ) * cfg.tick_size

/-- A legal configuration with a low `pair_target` (the config only
requires `pair_target ≤ 1`). -/
def c2BadCfg : CoordinatorConfig :=
  { pair_target := 1/2, max_net_diff := 10, bid_size := 2, tick_size := 1/100,
    reprice_threshold := 5/1000, debounce_ms := 200, dry_run := false }

/-- Production-default-style config for the hedge counterexamples
(`pair_target = 0.99`, `tick = 0.001`). -/
def c1Cfg : CoordinatorConfig :=
  { pair_target := 99/100, max_net_diff := 10, bid_size := 2, tick_size := 1/1000,
    reprice_threshold := 5/1000, debounce_ms := 200, dry_run := false }

/-- Fill history reaching a state with excess YES at avg 0.50 and one NO
share already held at avg 0.90. -/
def c1Fills : List FillEvent :=
  [{ order_id := "a", side := .yes, filled_size := 10, price := 1/2, status := .matched },
   { order_id := "b", side := .no, filled_size := 1, price := 9/10, status := .matched }]

/-- The inventory reached by `c1Fills`. -/
def c1Inv : InventoryState := applyFills InventoryConfig.default c1Fills

/-- Coordinator state after one full book tick `(0.44, 0.46, 0.38, 0.40)`. -/
def c1St : CoordState :=
  update_book (CoordState.init 0) (44/100) (46/100) (38/100) (4/10)

/-- The posted hedge bid of the first C1 counterexample filling at its
posted price 0.399. -/
def c1HedgeFill : FillEvent :=
  { order_id := "h", side := .no, filled_size := 2, price := 399/1000, status := .matched }

/-- Fill history with excess YES at avg 0.9896 (ceiling 0.0004 under
`pair_target = 0.99`). -/
def c1bInv : InventoryState :=
  applyFills InventoryConfig.default
    [{ order_id := "c", side := .yes, filled_size := 10, price := 9896/10000,
       status := .matched }]

/-- Coordinator state after one full book tick `(0.44, 0.46, 0.38, 0.50)`. -/
def c1bSt : CoordState :=
  update_book (CoordState.init 0) (44/100) (46/100) (38/100) (1/2)

/-- The clamped-up hedge bid of the second C1 counterexample filling at its
posted price 0.001. -/
def c1bHedgeFill : FillEvent :=
  { order_id := "h2", side := .no, filled_size := 2, price := 1/1000, status := .matched }

/-- Quantity of one side of the inventory. -/
def qtyOf (st : InventoryState) : Side → ℚ
  | .yes => st.yes_qty
  | .no => st.no_qty

/-- Average cost of one side of the inventory. -/
def avgOf (st : InventoryState) : Side → ℚ
  | .yes => st.yes_avg_cost
  | .no => st.no_avg_cost

/-- The complementary side. -/
def otherSide : Side → Side
  | .yes => .no
  | .no => .yes

/-- The sign `s` applied to a fill's size (`apply_fill`'s `multiplier`). -/
def fillSign : FillStatus → ℚ
  | .matched => 1
  | .confirmed => 1
  | .failed => -1

/-- A fill whose size is positive but below `f64::EPSILON`. -/
def c5TinyFill : FillEvent :=
  { order_id := "t", side := .yes, filled_size := 1/2^53, price := 1/2,
    status := .matched }

/-- Listener config of the `user_ws.rs` tests. -/
def uwCfg : UserWsConfig :=
  { api_key := "api-key", yes_asset_id := "1", no_asset_id := "2" }

/-- A taker trade message with trade id `t1` and the given taker order id. -/
def takerMsg (oid : String) : TradeMsg :=
  { event_type := some "trade", type_alt := none, status := some "MATCHED",
    trader_side := some "TAKER", maker_orders := none, asset_id := some "1",
    size := some 2, price := some 1, taker_order_id := some oid,
    order_id := none, id := some "t1", idents := IdentFields.none }

/-- An owned maker order for `uwCfg` with the given order id. -/
def ownMakerOrder (oid : String) : MakerOrder :=
  { owner := some "api-key", asset_id := some "1", outcome := none,
    matched_amount := some 2, size := none, price := some 1,
    order_id := some oid, id := none, idents := IdentFields.none }

/-- A maker trade message with trade id `t1`, the given status string and
maker orders. -/
def makerMsg (status : String) (mos : List MakerOrder) : TradeMsg :=
  { event_type := some "trade", type_alt := none, status := some status,
    trader_side := some "MAKER", maker_orders := some mos, asset_id := none,
    size := none, price := none, taker_order_id := none, order_id := none,
    id := some "t1", idents := IdentFields.none }

/-- Executor configuration on the live path. -/
def liveExecCfg : ExecutorConfig := { dry_run := false, has_client := true }

/-- Executor configuration on the dry-run path. -/
def dryExecCfg : ExecutorConfig := { dry_run := true, has_client := true }

/-- A per-command environment: the given placement outcome and nonce; remote
cancels succeed. -/
def execEnv (nonce : String) (placed : Option String) : ExecEnv :=
  { place_result := placed, cancel_ok := fun _ => true, cancel_all_ok := true,
    dry_nonce := nonce }

-- ─────────────────────────────────────────────────────────
-- Coordinator emission lemmas
-- ─────────────────────────────────────────────────────────

/-- All `PlacePostOnlyBid` prices in a command list satisfy `P`. -/
def PlacementsIn (cmds : List ExecutionCmd) (P : ℚ → Prop) : Prop :=
  ∀ side p sz r, ExecutionCmd.placePostOnlyBid side p sz r ∈ cmds → P p

theorem placementsIn_nil (P : ℚ → Prop) : PlacementsIn [] P := by
  intro side p sz r h
  simp at h

theorem placementsIn_append {as bs : List ExecutionCmd} {P : ℚ → Prop}
    (ha : PlacementsIn as P) (hb : PlacementsIn bs P) : PlacementsIn (as ++ bs) P := by
  intro side p sz r h
  rcases List.mem_append.mp h with h | h
  · exact ha _ _ _ _ h
  · exact hb _ _ _ _ h

theorem placementsIn_cancel (cfg : CoordinatorConfig) (st : CoordState)
    (side : Side) (reason : CancelReason) (P : ℚ → Prop) :
    PlacementsIn (cancel cfg st side reason).2 P := by
  intro s p sz r h
  unfold cancel at h
  split at h <;> simp_all

theorem placementsIn_place (cfg : CoordinatorConfig) (st : CoordState)
    (side : Side) (price : ℚ) (reason : BidReason) (now : ℚ) {P : ℚ → Prop}
    (hp : P price) : PlacementsIn (place cfg st side price reason now).2 P := by
  intro s p sz r h
  unfold place at h
  split at h <;> simp_all

theorem placementsIn_place_or_reprice (cfg : CoordinatorConfig) (st : CoordState)
    (side : Side) (price : ℚ) (reason : BidReason) (now : ℚ) {P : ℚ → Prop}
    (hp : P price) : PlacementsIn (place_or_reprice cfg st side price reason now).2 P := by
  unfold place_or_reprice
  dsimp only
  split
  · exact placementsIn_nil P
  · split
    · exact placementsIn_place cfg st side price reason now hp
    · split
      · exact placementsIn_append (placementsIn_cancel cfg st side .reprice P)
          (placementsIn_place cfg _ side price reason now hp)
      · exact placementsIn_nil P

theorem placementsIn_global_kill_switch (cfg : CoordinatorConfig)
    (st : CoordState) (P : ℚ → Prop) :
    PlacementsIn (global_kill_switch cfg st).2 P := by
  unfold global_kill_switch
  dsimp only
  split
  · split
    · exact placementsIn_append (placementsIn_cancel cfg st .yes .toxicFlow P)
        (placementsIn_cancel cfg _ .no .toxicFlow P)
    · exact placementsIn_append (placementsIn_cancel cfg st .yes .toxicFlow P)
        (placementsIn_nil P)
  · split
    · exact placementsIn_append (placementsIn_nil P)
        (placementsIn_cancel cfg _ .no .toxicFlow P)
    · exact placementsIn_append (placementsIn_nil P) (placementsIn_nil P)

theorem placementsIn_state_balanced (cfg : CoordinatorConfig) (st : CoordState)
    (inv : InventoryState) (ub : Book) (now : ℚ) {P : ℚ → Prop}
    (hy : P (safe_price cfg (balanced_raw cfg ub).1))
    (hn : P (safe_price cfg (balanced_raw cfg ub).2)) :
    PlacementsIn (state_balanced cfg st inv ub now).2 P := by
  unfold state_balanced
  dsimp only
  split
  · split
    · dsimp only
      split
      · split
        · exact placementsIn_append (placementsIn_cancel cfg st .yes .inventoryLimit P)
            (placementsIn_cancel cfg _ .no .inventoryLimit P)
        · exact placementsIn_append (placementsIn_cancel cfg st .yes .inventoryLimit P)
            (placementsIn_nil P)
      · split
        · exact placementsIn_append (placementsIn_nil P)
            (placementsIn_cancel cfg _ .no .inventoryLimit P)
        · exact placementsIn_append (placementsIn_nil P) (placementsIn_nil P)
    · split
      · split
        · exact placementsIn_cancel cfg st .yes .inventoryLimit P
        · exact placementsIn_nil P
      · split
        · exact placementsIn_cancel cfg st .no .inventoryLimit P
        · exact placementsIn_nil P
  · exact placementsIn_append
      (placementsIn_place_or_reprice cfg st .yes _ .provide now hy)
      (placementsIn_place_or_reprice cfg _ .no _ .provide now hn)

theorem placementsIn_state_hedge (cfg : CoordinatorConfig) (st : CoordState)
    (inv : InventoryState) (ub : Book) (now : ℚ) {P : ℚ → Prop}
    (hno : 0 < aggressive_price cfg (cfg.pair_target - inv.yes_avg_cost) ub.no_ask →
      P (aggressive_price cfg (cfg.pair_target - inv.yes_avg_cost) ub.no_ask))
    (hyes : 0 < aggressive_price cfg (cfg.pair_target - inv.no_avg_cost) ub.yes_ask →
      P (aggressive_price cfg (cfg.pair_target - inv.no_avg_cost) ub.yes_ask)) :
    PlacementsIn (state_hedge cfg st inv ub now).2 P := by
  unfold state_hedge
  dsimp only
  split
  · split
    next hp =>
      split
      · exact placementsIn_append (placementsIn_cancel cfg st .yes .inventoryLimit P)
          (placementsIn_place_or_reprice cfg _ .no _ .hedge now (hno hp))
      · exact placementsIn_append (placementsIn_nil P)
          (placementsIn_place_or_reprice cfg _ .no _ .hedge now (hno hp))
    next _ =>
      split
      · exact placementsIn_cancel cfg st .yes .inventoryLimit P
      · exact placementsIn_nil P
  · split
    next hp =>
      split
      · exact placementsIn_append (placementsIn_cancel cfg st .no .inventoryLimit P)
          (placementsIn_place_or_reprice cfg _ .yes _ .hedge now (hyes hp))
      · exact placementsIn_append (placementsIn_nil P)
          (placementsIn_place_or_reprice cfg _ .yes _ .hedge now (hyes hp))
    next _ =>
      split
      · exact placementsIn_cancel cfg st .no .inventoryLimit P
      · exact placementsIn_nil P

theorem placementsIn_tick (cfg : CoordinatorConfig) (st : CoordState)
    (ofi : OfiSnapshot) (inv : InventoryState) (now : ℚ) {P : ℚ → Prop}
    (hby : P (safe_price cfg (balanced_raw cfg (usable_book st)).1))
    (hbn : P (safe_price cfg (balanced_raw cfg (usable_book st)).2))
    (hhn : 0 < aggressive_price cfg (cfg.pair_target - inv.yes_avg_cost)
        (usable_book st).no_ask →
      P (aggressive_price cfg (cfg.pair_target - inv.yes_avg_cost)
        (usable_book st).no_ask))
    (hhy : 0 < aggressive_price cfg (cfg.pair_target - inv.no_avg_cost)
        (usable_book st).yes_ask →
      P (aggressive_price cfg (cfg.pair_target - inv.no_avg_cost)
        (usable_book st).yes_ask)) :
    PlacementsIn (tick cfg st ofi inv now).2 P := by
  unfold tick
  dsimp only
  split
  · exact placementsIn_global_kill_switch cfg st P
  · split
    · exact placementsIn_nil P
    · split
      · exact placementsIn_state_balanced cfg st inv _ now hby hbn
      · exact placementsIn_state_hedge cfg st inv _ now hhn hhy

-- ─────────────────────────────────────────────────────────
-- `safe_price` facts
-- ─────────────────────────────────────────────────────────

theorem safe_price_def (cfg : CoordinatorConfig) (p : ℚ) :
    safe_price cfg p = min (max (floorTick cfg p) (1/1000)) (999/1000) := rfl

theorem safe_price_range (cfg : CoordinatorConfig) (p : ℚ) :
    1/1000 ≤ safe_price cfg p ∧ safe_price cfg p ≤ 999/1000 := by
  rw [safe_price_def]
  exact ⟨le_min (le_max_right _ _) (by norm_num), min_le_right _ _⟩

theorem floorTick_le (cfg : CoordinatorConfig) (p : ℚ) (h : 0 < cfg.tick_size) :
    floorTick cfg p ≤ p := by
  unfold floorTick
  calc (⌊p / cfg.tick_size⌋ : ℚ) * cfg.tick_size
      ≤ (p / cfg.tick_size) * cfg.tick_size :=
        mul_le_mul_of_nonneg_right (Int.floor_le _) h.le
    _ = p := div_mul_cancel₀ p h.ne.symm

theorem safe_price_eq_floorTick (cfg : CoordinatorConfig) (p : ℚ)
    (h1 : 1/1000 ≤ floorTick cfg p) (h2 : floorTick cfg p ≤ 999/1000) :
    safe_price cfg p = floorTick cfg p := by
  rw [safe_price_def, max_eq_left h1, min_eq_left h2]

theorem safe_price_le_of_unclamped (cfg : CoordinatorConfig) (p : ℚ)
    (htick : 0 < cfg.tick_size) (h1 : 1/1000 ≤ floorTick cfg p) :
    safe_price cfg p ≤ p := by
  rw [safe_price_def, max_eq_left h1]
  exact le_trans (min_le_left _ _) (floorTick_le cfg p htick)

theorem aggressive_price_zero_or_safe (cfg : CoordinatorConfig) (c a : ℚ) :
    aggressive_price cfg c a = 0 ∨
    aggressive_price cfg c a = safe_price cfg (min c (a - cfg.tick_size)) := by
  unfold aggressive_price
  dsimp only
  split
  · exact Or.inl rfl
  · split
    · exact Or.inl rfl
    · split
      · exact Or.inl rfl
      · exact Or.inr rfl

-- ─────────────────────────────────────────────────────────
-- C6 — tick alignment of emitted prices
-- ─────────────────────────────────────────────────────────

/-- C6 (counterexample): with `tick_size = 0.01` the clamped output `0.999`
is not a multiple of the tick, so the claim "every emitted bid price is a
multiple of tick_size for every tick_size > 0 and every input price" is
false: `safe_price` at input 1.5 clamps to `0.999 = 99.9 × 0.01`. -/
theorem safe_price_not_tick_multiple :
    (0 : ℚ) < testCfg.tick_size ∧
    safe_price testCfg (3/2) = 999/1000 ∧
    ¬ ∃ k : ℤ, (999/1000 : ℚ) = k * testCfg.tick_size := by
  refine ⟨by norm_num [testCfg], by norm_num [safe_price, testCfg, min_def, max_def], ?_⟩
  rintro ⟨k, hk⟩
  have hk' : (999 : ℚ) = (k : ℚ) * 10 := by
    have ht : testCfg.tick_size = 1/100 := rfl
    rw [ht] at hk
    linarith
  have hz : (999 : ℤ) = k * 10 := by exact_mod_cast hk'
  omega

/-- C6 (amended): every `PlacePostOnlyBid` price emitted by a coordinator
tick lies in `[0.001, 0.999]` and is `safe_price` of some raw value; and
whenever the tick-floored value already lies in `[0.001, 0.999]` (i.e. no
clamping occurs), `safe_price` returns exactly that value, which is an
integer multiple of `tick_size`.  (Clamping to the bounds 0.001/0.999 can
break the tick-multiple property, as the counterexample shows.) -/
theorem emitted_price_range_and_alignment :
    (∀ cfg st ofi inv now, PlacementsIn (tick cfg st ofi inv now).2
      (fun p => (1/1000 ≤ p ∧ p ≤ 999/1000) ∧ ∃ y, p = safe_price cfg y)) ∧
    (∀ cfg p, 0 < cfg.tick_size → 1/1000 ≤ floorTick cfg p →
      floorTick cfg p ≤ 999/1000 →
      safe_price cfg p = floorTick cfg p ∧
      ∃ k : ℤ, safe_price cfg p = k * cfg.tick_size) := by
  constructor
  · intro cfg st ofi inv now
    refine placementsIn_tick cfg st ofi inv now ?_ ?_ ?_ ?_
    · exact ⟨safe_price_range cfg _, _, rfl⟩
    · exact ⟨safe_price_range cfg _, _, rfl⟩
    · intro hp
      rcases aggressive_price_zero_or_safe cfg (cfg.pair_target - inv.yes_avg_cost)
          (usable_book st).no_ask with h | h
      · rw [h] at hp
        exact absurd hp (lt_irrefl 0)
      · rw [h]
        exact ⟨safe_price_range cfg _, _, rfl⟩
    · intro hp
      rcases aggressive_price_zero_or_safe cfg (cfg.pair_target - inv.no_avg_cost)
          (usable_book st).yes_ask with h | h
      · rw [h] at hp
        exact absurd hp (lt_irrefl 0)
      · rw [h]
        exact ⟨safe_price_range cfg _, _, rfl⟩
  · intro cfg p htick h1 h2
    refine ⟨safe_price_eq_floorTick cfg p h1 h2, ⌊p / cfg.tick_size⌋, ?_⟩
    rw [safe_price_eq_floorTick cfg p h1 h2]
    rfl

/-- Witness for `emitted_price_range_and_alignment` at `tick = 0.01`,
`p = 0.45`. -/
theorem emitted_price_range_and_alignment_witness :
    safe_price testCfg (45/100) = floorTick testCfg (45/100) ∧
    ∃ k : ℤ, safe_price testCfg (45/100) = k * testCfg.tick_size :=
  emitted_price_range_and_alignment.2 testCfg (45/100) (by norm_num [testCfg])
    (by norm_num [floorTick, testCfg]) (by norm_num [floorTick, testCfg])

-- ─────────────────────────────────────────────────────────
-- C3 — hedge pricing and empty-ask refusal
-- ─────────────────────────────────────────────────────────

theorem aggressive_price_refuse_ask (cfg : CoordinatorConfig) (c a : ℚ)
    (h : a ≤ 0) : aggressive_price cfg c a = 0 := by
  unfold aggressive_price
  dsimp only
  split_ifs with h1 h2 h3 <;> rfl

theorem aggressive_price_refuse_tick (cfg : CoordinatorConfig) (c a : ℚ)
    (h : a - cfg.tick_size ≤ 0) : aggressive_price cfg c a = 0 := by
  unfold aggressive_price
  dsimp only
  split_ifs with h1 h2 h3 <;> rfl

theorem aggressive_price_eq_safe (cfg : CoordinatorConfig) (c a : ℚ)
    (htick : 0 < cfg.tick_size) (hc : 0 < c) (hc1 : c < 1)
    (ha : 0 < a - cfg.tick_size) :
    aggressive_price cfg c a = safe_price cfg (min c (a - cfg.tick_size)) := by
  unfold aggressive_price
  dsimp only
  split_ifs with h1 h2 h3
  · rcases h1 with h1 | h1 <;> linarith
  · linarith
  · linarith
  · rfl

/-- C3 (counterexample): the deficit-side bid price does *not* equal
`min(ceiling, best_ask − tick_size)` in general — the source floors that
value to the tick first.  With `tick = 0.01`, `ceiling = 0.505`,
`best_ask = 0.9` the code bids `0.50`, not `min(0.505, 0.89) = 0.505`. -/
theorem aggressive_price_not_raw_min :
    aggressive_price testCfg (505/1000) (9/10) = 1/2 ∧
    min ((505:ℚ)/1000) (9/10 - testCfg.tick_size) = 505/1000 ∧
    (1/2 : ℚ) ≠ 505/1000 := by
  refine ⟨?_, by norm_num [testCfg, min_def], by norm_num⟩
  rw [aggressive_price_eq_safe testCfg _ _ (by norm_num [testCfg]) (by norm_num)
    (by norm_num) (by norm_num [testCfg])]
  norm_num [safe_price, testCfg, min_def, max_def]

/-- C3 (amended): the hedge price is `min(ceiling, best_ask − tick_size)`
*floored to the tick and clamped to [0.001, 0.999]* (i.e. `safe_price` of
the min); the function returns 0 — refusing, never falling back to the
ceiling — when `best_ask ≤ 0` or `best_ask − tick_size ≤ 0`; and whenever
the deficit side's best ask is ≤ 0, `state_hedge` emits no
`PlacePostOnlyBid` that tick. -/
theorem hedge_pricing_and_empty_ask_refusal :
    (∀ (cfg : CoordinatorConfig) (c a : ℚ), a ≤ 0 → aggressive_price cfg c a = 0) ∧
    (∀ (cfg : CoordinatorConfig) (c a : ℚ), a - cfg.tick_size ≤ 0 →
      aggressive_price cfg c a = 0) ∧
    (∀ (cfg : CoordinatorConfig) (c a : ℚ), 0 < cfg.tick_size → 0 < c → c < 1 →
      0 < a - cfg.tick_size →
      aggressive_price cfg c a = safe_price cfg (min c (a - cfg.tick_size))) ∧
    (∀ (cfg : CoordinatorConfig) (st : CoordState) (inv : InventoryState)
      (ub : Book) (now : ℚ), 0 < inv.net_diff → ub.no_ask ≤ 0 →
      PlacementsIn (state_hedge cfg st inv ub now).2 (fun _ => False)) ∧
    (∀ (cfg : CoordinatorConfig) (st : CoordState) (inv : InventoryState)
      (ub : Book) (now : ℚ), inv.net_diff ≤ 0 → ub.yes_ask ≤ 0 →
      PlacementsIn (state_hedge cfg st inv ub now).2 (fun _ => False)) := by
  refine ⟨aggressive_price_refuse_ask, aggressive_price_refuse_tick,
    aggressive_price_eq_safe, ?_, ?_⟩
  · intro cfg st inv ub now hnet hask
    have hz := aggressive_price_refuse_ask cfg (cfg.pair_target - inv.yes_avg_cost)
      ub.no_ask hask
    unfold state_hedge
    dsimp only
    rw [if_pos hnet, hz, if_neg (lt_irrefl (0:ℚ))]
    split
    · exact placementsIn_cancel cfg st .yes .inventoryLimit _
    · exact placementsIn_nil _
  · intro cfg st inv ub now hnet hask
    have hz := aggressive_price_refuse_ask cfg (cfg.pair_target - inv.no_avg_cost)
      ub.yes_ask hask
    unfold state_hedge
    dsimp only
    rw [if_neg (not_lt.mpr hnet), hz, if_neg (lt_irrefl (0:ℚ))]
    split
    · exact placementsIn_cancel cfg st .no .inventoryLimit _
    · exact placementsIn_nil _

/-- Witness for `hedge_pricing_and_empty_ask_refusal`: with `best_ask = 0`
(scenario E's empty NO book) the aggressive price is 0, and with a live book
it is `safe_price` of the min. -/
theorem hedge_pricing_and_empty_ask_refusal_witness :
    aggressive_price testCfg (51/100) 0 = 0 ∧
    aggressive_price testCfg (51/100) (49/100) =
      safe_price testCfg (min (51/100) (49/100 - testCfg.tick_size)) :=
  ⟨hedge_pricing_and_empty_ask_refusal.1 testCfg (51/100) 0 le_rfl,
   (hedge_pricing_and_empty_ask_refusal.2.2.1) testCfg (51/100) (49/100)
     (by norm_num [testCfg]) (by norm_num) (by norm_num) (by norm_num [testCfg])⟩

-- ─────────────────────────────────────────────────────────
-- C10 — dry-run emits no execution commands
-- ─────────────────────────────────────────────────────────

theorem place_dry (cfg : CoordinatorConfig) (st : CoordState) (side : Side)
    (price : ℚ) (reason : BidReason) (now : ℚ) (h : cfg.dry_run = true) :
    (place cfg st side price reason now).2 = [] := by
  simp [place, h]

theorem cancel_dry (cfg : CoordinatorConfig) (st : CoordState) (side : Side)
    (reason : CancelReason) (h : cfg.dry_run = true) :
    (cancel cfg st side reason).2 = [] := by
  simp [cancel, h]

theorem place_or_reprice_dry (cfg : CoordinatorConfig) (st : CoordState)
    (side : Side) (price : ℚ) (reason : BidReason) (now : ℚ)
    (h : cfg.dry_run = true) :
    (place_or_reprice cfg st side price reason now).2 = [] := by
  unfold place_or_reprice
  dsimp only
  split
  · rfl
  · split
    · exact place_dry cfg st side price reason now h
    · split
      · simp [cancel, place, h]
      · rfl

theorem global_kill_switch_dry (cfg : CoordinatorConfig) (st : CoordState)
    (h : cfg.dry_run = true) : (global_kill_switch cfg st).2 = [] := by
  unfold global_kill_switch
  dsimp only
  split <;> split <;> simp [cancel, h]

theorem state_balanced_dry (cfg : CoordinatorConfig) (st : CoordState)
    (inv : InventoryState) (ub : Book) (now : ℚ) (h : cfg.dry_run = true) :
    (state_balanced cfg st inv ub now).2 = [] := by
  unfold state_balanced
  dsimp only
  split
  · split
    · dsimp only
      split <;> split <;> simp [cancel, h]
    · split <;> split <;> simp [cancel, h]
  · simp [place_or_reprice_dry _ _ _ _ _ _ h]

theorem state_hedge_dry (cfg : CoordinatorConfig) (st : CoordState)
    (inv : InventoryState) (ub : Book) (now : ℚ) (h : cfg.dry_run = true) :
    (state_hedge cfg st inv ub now).2 = [] := by
  unfold state_hedge
  dsimp only
  split <;> split <;> split <;>
    simp [cancel, place_or_reprice_dry _ _ _ _ _ _ h, h]

theorem tick_dry (cfg : CoordinatorConfig) (st : CoordState) (ofi : OfiSnapshot)
    (inv : InventoryState) (now : ℚ) (h : cfg.dry_run = true) :
    (tick cfg st ofi inv now).2 = [] := by
  unfold tick
  dsimp only
  split
  · exact global_kill_switch_dry cfg st h
  · split
    · rfl
    · split
      · exact state_balanced_dry cfg st inv _ now h
      · exact state_hedge_dry cfg st inv _ now h

/-- C10: with `dry_run = true` the coordinator's `place` and `cancel` update
only the local bid-slot state and emit nothing, so an entire book tick emits
no `ExecutionCmd` at all. -/
theorem dry_run_emits_no_commands (cfg : CoordinatorConfig) (st : CoordState)
    (side : Side) (price : ℚ) (breason : BidReason) (creason : CancelReason)
    (now : ℚ) (ofi : OfiSnapshot) (inv : InventoryState)
    (h : cfg.dry_run = true) :
    (place cfg st side price breason now).2 = [] ∧
    (place cfg st side price breason now).1 =
      st.setSlot side { active := true, price := price, last_placed := now } ∧
    (cancel cfg st side creason).2 = [] ∧
    (cancel cfg st side creason).1 =
      st.setSlot side
        { active := false, price := 0, last_placed := (st.slot side).last_placed } ∧
    (tick cfg st ofi inv now).2 = [] := by
  refine ⟨place_dry cfg st side price breason now h, ?_,
    cancel_dry cfg st side creason h, ?_, tick_dry cfg st ofi inv now h⟩
  · simp [place, h]
  · simp [cancel, h]

/-- Witness for `dry_run_emits_no_commands` at a concrete dry-run
configuration and the scenario-A book tick. -/
theorem dry_run_emits_no_commands_witness :
    (tick dryTestCfg
      (update_book (CoordState.init 0) (44/100) (46/100) (48/100) (52/100))
      OfiSnapshot.default InventoryState.default 0).2 = [] :=
  (dry_run_emits_no_commands dryTestCfg
    (update_book (CoordState.init 0) (44/100) (46/100) (48/100) (52/100))
    .yes (45/100) .provide .reprice 0 OfiSnapshot.default
    InventoryState.default rfl).2.2.2.2

-- ─────────────────────────────────────────────────────────
-- C4 — kill-switch symmetry
-- ─────────────────────────────────────────────────────────

/-- C4: on any book tick whose latest OFI snapshot has either side toxic,
the coordinator runs the global kill switch and returns: afterwards neither
bid slot is active, no `PlacePostOnlyBid` is emitted, every emitted command
is a `CancelSide` with reason `ToxicFlow`, and (live mode) each side that
had an active bid gets its `CancelSide` command. -/
theorem kill_switch_symmetry (cfg : CoordinatorConfig) (st : CoordState)
    (ofi : OfiSnapshot) (inv : InventoryState) (now : ℚ)
    (h : ofi.yes.is_toxic = true ∨ ofi.no.is_toxic = true) :
    (tick cfg st ofi inv now).1.yes_bid.active = false ∧
    (tick cfg st ofi inv now).1.no_bid.active = false ∧
    PlacementsIn (tick cfg st ofi inv now).2 (fun _ => False) ∧
    (∀ c ∈ (tick cfg st ofi inv now).2,
      c = ExecutionCmd.cancelSide .yes .toxicFlow ∨
      c = ExecutionCmd.cancelSide .no .toxicFlow) ∧
    (cfg.dry_run = false → st.yes_bid.active = true →
      ExecutionCmd.cancelSide .yes .toxicFlow ∈ (tick cfg st ofi inv now).2) ∧
    (cfg.dry_run = false → st.no_bid.active = true →
      ExecutionCmd.cancelSide .no .toxicFlow ∈ (tick cfg st ofi inv now).2) := by
  have htox : (ofi.yes.is_toxic || ofi.no.is_toxic) = true := by
    rcases h with h | h <;> simp [h]
  have htick : tick cfg st ofi inv now = global_kill_switch cfg st := by
    unfold tick
    rw [if_pos htox]
  rw [htick]
  unfold global_kill_switch
  dsimp only
  by_cases hy : st.yes_bid.active <;> by_cases hn : st.no_bid.active <;>
    by_cases hd : cfg.dry_run <;>
    simp [cancel, hy, hn, hd, CoordState.setSlot, CoordState.slot, PlacementsIn]

/-- Witness for `kill_switch_symmetry`: scenario C — YES toxic, both slots
active, one book tick; both sides are cancelled with `ToxicFlow` and no bid
is placed. -/
theorem kill_switch_symmetry_witness :
    ExecutionCmd.cancelSide .yes .toxicFlow ∈
      (tick testCfg
        { CoordState.init 0 with
          yes_bid := { active := true, price := 45/100, last_placed := -60000 },
          no_bid := { active := true, price := 1/2, last_placed := -60000 } }
        { yes := { ofi_score := 100, buy_volume := 100, sell_volume := 0, is_toxic := true },
          no := SideOfi.default }
        InventoryState.default 0).2 :=
  (kill_switch_symmetry testCfg
    { CoordState.init 0 with
      yes_bid := { active := true, price := 45/100, last_placed := -60000 },
      no_bid := { active := true, price := 1/2, last_placed := -60000 } }
    { yes := { ofi_score := 100, buy_volume := 100, sell_volume := 0, is_toxic := true },
      no := SideOfi.default }
    InventoryState.default 0 (Or.inl rfl)).2.2.2.2.1 rfl rfl

-- ─────────────────────────────────────────────────────────
-- C2 — balanced pricing
-- ─────────────────────────────────────────────────────────

theorem balanced_raw_sum_le (cfg : CoordinatorConfig) (ub : Book) :
    (balanced_raw cfg ub).1 + (balanced_raw cfg ub).2 ≤ cfg.pair_target := by
  unfold balanced_raw
  dsimp only
  split
  · next h => exact h
  · next h => push_neg at h; linarith

/-- C2 (counterexample): the "bid sum ≤ pair_target + tick-rounding ε" cap
fails when a raw bid falls below the 0.001 clamp floor.  With
`pair_target = 0.5`, `tick = 0.01`, book `(0.1, 0.1, 0.7, 0.7)` (all four
prices positive), fresh state and zero inventory, the coordinator emits
YES@0.001 and NO@0.55 — summing to 0.551 > 0.5 + 0.01. -/
theorem balanced_sum_cap_counterexample :
    (handleBookTick c2BadCfg (CoordState.init 0) (1/10) (1/10) (7/10) (7/10)
      OfiSnapshot.default InventoryState.default 0).2 =
      [ExecutionCmd.placePostOnlyBid .yes (1/1000) 2 .provide,
       ExecutionCmd.placePostOnlyBid .no (55/100) 2 .provide] ∧
    ¬((1:ℚ)/1000 + 55/100 ≤ c2BadCfg.pair_target + c2BadCfg.tick_size) := by
  constructor
  · norm_num [handleBookTick, update_book, tick, usable_book, state_balanced,
      balanced_raw, place_or_reprice, place, cancel, safe_price,
      CoordState.init, CoordState.slot, CoordState.setSlot, BidSlot.default,
      Book.default, OfiSnapshot.default, SideOfi.default,
      InventoryState.default, c2BadCfg, eps64, min_def, max_def]
  · norm_num [c2BadCfg]

/-- C2 (amended): in Balanced state with `can_open`, every emitted bid price
is `safe_price` of the capped mids (`mid − excess/2` when the mid sum
exceeds `pair_target`, the mid itself otherwise); *provided neither floored
price falls below the 0.001 clamp floor*, the two prices sum to at most
`pair_target` (no ε needed); and the scenario-A book
`(0.44, 0.46, 0.48, 0.52)` with zero inventory emits exactly YES@0.45 and
NO@0.50. -/
theorem balanced_pricing :
    (∀ (cfg : CoordinatorConfig) (st : CoordState) (inv : InventoryState)
      (ub : Book) (now : ℚ),
      PlacementsIn (state_balanced cfg st inv ub now).2
        (fun p => p = safe_price cfg (balanced_raw cfg ub).1 ∨
                  p = safe_price cfg (balanced_raw cfg ub).2)) ∧
    (∀ (cfg : CoordinatorConfig) (ub : Book), 0 < cfg.tick_size →
      1/1000 ≤ floorTick cfg (balanced_raw cfg ub).1 →
      1/1000 ≤ floorTick cfg (balanced_raw cfg ub).2 →
      safe_price cfg (balanced_raw cfg ub).1 +
        safe_price cfg (balanced_raw cfg ub).2 ≤ cfg.pair_target) ∧
    (handleBookTick testCfg (CoordState.init 0) (44/100) (46/100) (48/100) (52/100)
      OfiSnapshot.default InventoryState.default 0).2 =
      [ExecutionCmd.placePostOnlyBid .yes (45/100) 2 .provide,
       ExecutionCmd.placePostOnlyBid .no (1/2) 2 .provide] := by
  refine ⟨?_, ?_, ?_⟩
  · intro cfg st inv ub now
    exact placementsIn_state_balanced cfg st inv ub now (Or.inl rfl) (Or.inr rfl)
  · intro cfg ub htick h1 h2
    have hy := safe_price_le_of_unclamped cfg (balanced_raw cfg ub).1 htick h1
    have hn := safe_price_le_of_unclamped cfg (balanced_raw cfg ub).2 htick h2
    have hsum := balanced_raw_sum_le cfg ub
    linarith
  · norm_num [handleBookTick, update_book, tick, usable_book, state_balanced,
      balanced_raw, place_or_reprice, place, cancel, safe_price,
      CoordState.init, CoordState.slot, CoordState.setSlot, BidSlot.default,
      Book.default, OfiSnapshot.default, SideOfi.default,
      InventoryState.default, testCfg, eps64, min_def, max_def]

/-- Witness for `balanced_pricing`: the sum cap applied at the scenario-A
book, where the floored prices 0.45 and 0.50 clear the 0.001 floor. -/
theorem balanced_pricing_witness :
    safe_price testCfg
        (balanced_raw testCfg
          { yes_bid := 44/100, yes_ask := 46/100, no_bid := 48/100, no_ask := 52/100 }).1 +
      safe_price testCfg
        (balanced_raw testCfg
          { yes_bid := 44/100, yes_ask := 46/100, no_bid := 48/100, no_ask := 52/100 }).2 ≤
      testCfg.pair_target :=
  balanced_pricing.2.1 testCfg
    { yes_bid := 44/100, yes_ask := 46/100, no_bid := 48/100, no_ask := 52/100 }
    (by norm_num [testCfg])
    (by norm_num [floorTick, balanced_raw, testCfg])
    (by norm_num [floorTick, balanced_raw, testCfg])

-- ─────────────────────────────────────────────────────────
-- `apply_fill` structural lemmas (shared by C5 and C1)
-- ─────────────────────────────────────────────────────────

theorem apply_fill_qty_rule (icfg : InventoryConfig) (st : InventoryState)
    (f : FillEvent) :
    qtyOf (apply_fill icfg st f) f.side =
      max (qtyOf st f.side + f.filled_size * fillSign f.status) 0 ∧
    qtyOf (apply_fill icfg st f) (otherSide f.side) = qtyOf st (otherSide f.side) ∧
    avgOf (apply_fill icfg st f) (otherSide f.side) = avgOf st (otherSide f.side) := by
  cases hs : f.side <;> cases ht : f.status <;>
    simp [apply_fill, qtyOf, avgOf, otherSide, fillSign, hs, ht]

theorem apply_fill_vwap (icfg : InventoryConfig) (st : InventoryState)
    (f : FillEvent) (hstat : f.status ≠ .failed) (hsz : 0 < f.filled_size)
    (heps : eps64 ≤ qtyOf (apply_fill icfg st f) f.side) :
    avgOf (apply_fill icfg st f) f.side =
      (qtyOf st f.side * avgOf st f.side + f.filled_size * f.price) /
        qtyOf (apply_fill icfg st f) f.side := by
  have h0 : (0:ℚ) < eps64 := by norm_num [eps64]
  cases hs : f.side <;> cases ht : f.status
  case yes.failed => exact absurd ht hstat
  case no.failed => exact absurd ht hstat
  all_goals simp only [apply_fill, qtyOf, avgOf, hs, ht] at heps ⊢
  all_goals rw [if_neg (not_lt.mpr heps), if_pos ⟨by linarith, by linarith⟩]

theorem apply_fill_avg_reset (icfg : InventoryConfig) (st : InventoryState)
    (f : FillEvent) (heps : qtyOf (apply_fill icfg st f) f.side < eps64) :
    avgOf (apply_fill icfg st f) f.side = 0 := by
  cases hs : f.side <;> cases ht : f.status <;>
    simp only [apply_fill, qtyOf, avgOf, hs, ht] at heps ⊢ <;>
    rw [if_pos heps]

theorem apply_fill_failed_keeps_avg (icfg : InventoryConfig)
    (st : InventoryState) (f : FillEvent) (hstat : f.status = .failed)
    (hsz : 0 < f.filled_size)
    (heps : eps64 ≤ qtyOf (apply_fill icfg st f) f.side) :
    avgOf (apply_fill icfg st f) f.side = avgOf st f.side := by
  cases hs : f.side <;>
    simp only [apply_fill, qtyOf, avgOf, hs, hstat] at heps ⊢ <;>
    rw [if_neg (not_lt.mpr heps), if_neg (fun hc => absurd hc.1 (by linarith))]

theorem apply_fill_nonneg (icfg : InventoryConfig) (st : InventoryState)
    (f : FillEvent) (hy : 0 ≤ st.yes_qty) (hn : 0 ≤ st.no_qty) :
    0 ≤ (apply_fill icfg st f).yes_qty ∧ 0 ≤ (apply_fill icfg st f).no_qty := by
  cases hs : f.side <;>
    simp [apply_fill, hs, le_max_right, hy, hn]

theorem applyFills_nonneg_aux (icfg : InventoryConfig) :
    ∀ (fills : List FillEvent) (st : InventoryState), 0 ≤ st.yes_qty →
      0 ≤ st.no_qty →
      0 ≤ (fills.foldl (apply_fill icfg) st).yes_qty ∧
      0 ≤ (fills.foldl (apply_fill icfg) st).no_qty := by
  intro fills
  induction fills with
  | nil => intro st hy hn; exact ⟨hy, hn⟩
  | cons f rest ih =>
    intro st hy hn
    have h := apply_fill_nonneg icfg st f hy hn
    exact ih (apply_fill icfg st f) h.1 h.2

-- ─────────────────────────────────────────────────────────
-- C5 — inventory update rule
-- ─────────────────────────────────────────────────────────

/-- C5 (counterexample): "when s = +1 and the new quantity is positive the
side's average cost becomes the VWAP" is false for a positive fill whose
resulting quantity is positive but below `f64::EPSILON`: the code then
resets the average to 0 instead of the VWAP (here 0.5). -/
theorem apply_fill_vwap_counterexample :
    0 < c5TinyFill.filled_size ∧
    0 < (apply_fill InventoryConfig.default InventoryState.default
      c5TinyFill).yes_qty ∧
    (apply_fill InventoryConfig.default InventoryState.default
      c5TinyFill).yes_avg_cost = 0 ∧
    (InventoryState.default.yes_qty * InventoryState.default.yes_avg_cost +
        c5TinyFill.filled_size * c5TinyFill.price) /
      (apply_fill InventoryConfig.default InventoryState.default
        c5TinyFill).yes_qty = 1/2 ∧
    (0 : ℚ) ≠ 1/2 := by
  refine ⟨by norm_num [c5TinyFill], ?_, ?_, ?_, by norm_num⟩ <;>
    norm_num [apply_fill, c5TinyFill, InventoryState.default,
      InventoryConfig.default, eps64, max_def, can_open]

/-- C5 (amended): `apply_fill` sets the filled side's quantity to
`max(0, qty_old + s·size)` with `s = +1` for Matched/Confirmed and `−1` for
Failed, leaving the other side untouched; when `s = +1`, `size > 0` and the
new quantity is at least `f64::EPSILON = 2⁻⁵²`, the side's average cost
becomes the VWAP `(qty_old·avg_old + size·price)/qty_new`; when the new
quantity is *below* `f64::EPSILON` (not merely zero) the average resets to
0; a Failed reversal leaving at least `f64::EPSILON` keeps the average; and
quantities are non-negative after every fill sequence. -/
theorem inventory_update_rule :
    (∀ (icfg : InventoryConfig) (st : InventoryState) (f : FillEvent),
      qtyOf (apply_fill icfg st f) f.side =
        max (qtyOf st f.side + f.filled_size * fillSign f.status) 0 ∧
      qtyOf (apply_fill icfg st f) (otherSide f.side) = qtyOf st (otherSide f.side) ∧
      avgOf (apply_fill icfg st f) (otherSide f.side) = avgOf st (otherSide f.side)) ∧
    (∀ (icfg : InventoryConfig) (st : InventoryState) (f : FillEvent),
      f.status ≠ .failed → 0 < f.filled_size →
      eps64 ≤ qtyOf (apply_fill icfg st f) f.side →
      avgOf (apply_fill icfg st f) f.side =
        (qtyOf st f.side * avgOf st f.side + f.filled_size * f.price) /
          qtyOf (apply_fill icfg st f) f.side) ∧
    (∀ (icfg : InventoryConfig) (st : InventoryState) (f : FillEvent),
      qtyOf (apply_fill icfg st f) f.side < eps64 →
      avgOf (apply_fill icfg st f) f.side = 0) ∧
    (∀ (icfg : InventoryConfig) (st : InventoryState) (f : FillEvent),
      f.status = .failed → 0 < f.filled_size →
      eps64 ≤ qtyOf (apply_fill icfg st f) f.side →
      avgOf (apply_fill icfg st f) f.side = avgOf st f.side) ∧
    (∀ (icfg : InventoryConfig) (fills : List FillEvent),
      0 ≤ (applyFills icfg fills).yes_qty ∧ 0 ≤ (applyFills icfg fills).no_qty) :=
  ⟨apply_fill_qty_rule, apply_fill_vwap, apply_fill_avg_reset,
   apply_fill_failed_keeps_avg,
   fun icfg fills =>
     applyFills_nonneg_aux icfg fills InventoryState.default le_rfl le_rfl⟩

/-- Witness for `inventory_update_rule`: a 10-share YES fill at 0.50 into a
flat book yields quantity 10 and VWAP average 0.50. -/
theorem inventory_update_rule_witness :
    avgOf (apply_fill InventoryConfig.default InventoryState.default
        { order_id := "w", side := .yes, filled_size := 10, price := 1/2,
          status := .matched }) Side.yes =
      (qtyOf InventoryState.default .yes * avgOf InventoryState.default .yes +
        10 * (1/2)) /
        qtyOf (apply_fill InventoryConfig.default InventoryState.default
          { order_id := "w", side := .yes, filled_size := 10, price := 1/2,
            status := .matched }) Side.yes :=
  inventory_update_rule.2.1 InventoryConfig.default InventoryState.default
    { order_id := "w", side := .yes, filled_size := 10, price := 1/2,
      status := .matched }
    (by simp) (by norm_num)
    (by norm_num [apply_fill, qtyOf, InventoryState.default, eps64, max_def,
      InventoryConfig.default, can_open])

-- ─────────────────────────────────────────────────────────
-- C1 — pair-cost safety of hedge fills
-- ─────────────────────────────────────────────────────────

theorem aggressive_price_refuse_ceiling (cfg : CoordinatorConfig) (c a : ℚ)
    (h : c ≤ 0) : aggressive_price cfg c a = 0 := by
  unfold aggressive_price
  dsimp only
  rw [if_pos (Or.inl h)]

/-- C1 (counterexample): the hedge ceiling bounds only the *bid price* by
`pair_target − avg_cost(excess side)`; it does not bound the post-fill pair
cost when the deficit side already holds inventory at a higher average, nor
when the 0.001 clamp lifts the price above a sub-tick ceiling.
First run: state reached by fills YES 10@0.50 and NO 1@0.90, book ask
0.40 → hedge bid NO@0.399 emitted; filling it gives pair cost
0.5 + 0.566 = 1.066 > 0.99.  Second run: YES 10@0.9896 (ceiling 0.0004),
deficit side empty → bid clamps up to NO@0.001; filling gives
0.9896 + 0.001 = 0.9906 > 0.99. -/
theorem hedge_pair_cost_counterexample :
    ((tick c1Cfg c1St OfiSnapshot.default c1Inv 0).2 =
      [ExecutionCmd.placePostOnlyBid .no (399/1000) 2 .hedge] ∧
     c1Cfg.pair_target <
       (apply_fill InventoryConfig.default c1Inv c1HedgeFill).yes_avg_cost +
       (apply_fill InventoryConfig.default c1Inv c1HedgeFill).no_avg_cost) ∧
    ((tick c1Cfg c1bSt OfiSnapshot.default c1bInv 0).2 =
      [ExecutionCmd.placePostOnlyBid .no (1/1000) 2 .hedge] ∧
     c1bInv.no_qty = 0 ∧
     c1Cfg.pair_target <
       (apply_fill InventoryConfig.default c1bInv c1bHedgeFill).yes_avg_cost +
       (apply_fill InventoryConfig.default c1bInv c1bHedgeFill).no_avg_cost) := by
  refine ⟨⟨?_, ?_⟩, ?_, ?_, ?_⟩ <;>
    norm_num [c1Inv, c1bInv, c1Fills, applyFills, apply_fill, c1HedgeFill,
      c1bHedgeFill, can_open, InventoryConfig.default, InventoryState.default,
      tick, c1St, c1bSt, c1Cfg, update_book, usable_book, state_hedge,
      aggressive_price, safe_price, place_or_reprice, place, cancel,
      CoordState.init, CoordState.slot, CoordState.setSlot, BidSlot.default,
      Book.default, OfiSnapshot.default, SideOfi.default, eps64,
      min_def, max_def]

theorem hedge_fill_pair_cost_aux (cfg : CoordinatorConfig)
    (icfg : InventoryConfig) (inv : InventoryState) (s : Side) (ask : ℚ)
    (f : FillEvent) (htick : 0 < cfg.tick_size) (hsz : 0 < f.filled_size)
    (hq : qtyOf inv s = 0) (hside : f.side = s) (hstatus : f.status = .matched)
    (hprice : f.price =
      aggressive_price cfg (cfg.pair_target - avgOf inv (otherSide s)) ask)
    (hp : 0 < aggressive_price cfg (cfg.pair_target - avgOf inv (otherSide s)) ask)
    (hfl : 1/1000 ≤ floorTick cfg
      (min (cfg.pair_target - avgOf inv (otherSide s)) (ask - cfg.tick_size))) :
    avgOf (apply_fill icfg inv f) (otherSide s) + avgOf (apply_fill icfg inv f) s ≤
      cfg.pair_target := by
  have hc : 0 < cfg.pair_target - avgOf inv (otherSide s) := by
    by_contra hcon
    push_neg at hcon
    rw [aggressive_price_refuse_ceiling cfg _ ask hcon] at hp
    exact absurd hp (lt_irrefl 0)
  have hps : aggressive_price cfg (cfg.pair_target - avgOf inv (otherSide s)) ask =
      safe_price cfg
        (min (cfg.pair_target - avgOf inv (otherSide s)) (ask - cfg.tick_size)) := by
    rcases aggressive_price_zero_or_safe cfg
        (cfg.pair_target - avgOf inv (otherSide s)) ask with h | h
    · rw [h] at hp
      exact absurd hp (lt_irrefl 0)
    · exact h
  have hple : f.price ≤ cfg.pair_target - avgOf inv (otherSide s) := by
    rw [hprice, hps]
    exact le_trans (safe_price_le_of_unclamped cfg _ htick hfl) (min_le_left _ _)
  have h1 := (apply_fill_qty_rule icfg inv f).1
  rw [hside, hstatus, hq] at h1
  have hq' : qtyOf (apply_fill icfg inv f) s = f.filled_size := by
    rw [h1]
    simp only [fillSign, mul_one, zero_add]
    exact max_eq_left hsz.le
  have hother := (apply_fill_qty_rule icfg inv f).2.2
  rw [hside] at hother
  rw [hother]
  by_cases hcase : f.filled_size < eps64
  · have hz := apply_fill_avg_reset icfg inv f
      (by rw [hside, hq']; exact hcase)
    rw [hside] at hz
    rw [hz]
    linarith
  · push_neg at hcase
    have hv := apply_fill_vwap icfg inv f (by rw [hstatus]; simp) hsz
      (by rw [hside, hq']; exact hcase)
    rw [hside] at hv
    have havg : avgOf (apply_fill icfg inv f) s = f.price := by
      rw [hv, hq, hq', zero_mul, zero_add, mul_div_cancel_left₀ _ hsz.ne']
    rw [havg]
    linarith

/-- C1 (amended): after a Hedge-state bid (priced by `aggressive_price`,
i.e. `min(ceiling, best_ask − tick)` floored to tick and clamped) fills at
its posted price, `yes_avg_cost + no_avg_cost ≤ pair_target` holds
*provided* the deficit side held zero quantity before the fill and the
tick-floored raw price is at least the 0.001 clamp floor (so the clamp
cannot lift the price above the ceiling).  Both deficit directions. -/
theorem hedge_fill_pair_cost_safety (cfg : CoordinatorConfig)
    (icfg : InventoryConfig) (inv : InventoryState) (ask sz : ℚ) (oid : String)
    (htick : 0 < cfg.tick_size) (hsz : 0 < sz) :
    (inv.no_qty = 0 →
      0 < aggressive_price cfg (cfg.pair_target - inv.yes_avg_cost) ask →
      1/1000 ≤ floorTick cfg
        (min (cfg.pair_target - inv.yes_avg_cost) (ask - cfg.tick_size)) →
      (apply_fill icfg inv
        { order_id := oid, side := .no, filled_size := sz,
          price := aggressive_price cfg (cfg.pair_target - inv.yes_avg_cost) ask,
          status := .matched }).yes_avg_cost +
      (apply_fill icfg inv
        { order_id := oid, side := .no, filled_size := sz,
          price := aggressive_price cfg (cfg.pair_target - inv.yes_avg_cost) ask,
          status := .matched }).no_avg_cost ≤ cfg.pair_target) ∧
    (inv.yes_qty = 0 →
      0 < aggressive_price cfg (cfg.pair_target - inv.no_avg_cost) ask →
      1/1000 ≤ floorTick cfg
        (min (cfg.pair_target - inv.no_avg_cost) (ask - cfg.tick_size)) →
      (apply_fill icfg inv
        { order_id := oid, side := .yes, filled_size := sz,
          price := aggressive_price cfg (cfg.pair_target - inv.no_avg_cost) ask,
          status := .matched }).yes_avg_cost +
      (apply_fill icfg inv
        { order_id := oid, side := .yes, filled_size := sz,
          price := aggressive_price cfg (cfg.pair_target - inv.no_avg_cost) ask,
          status := .matched }).no_avg_cost ≤ cfg.pair_target) := by
  constructor
  · intro hq hp hfl
    have h := hedge_fill_pair_cost_aux cfg icfg inv .no ask
      { order_id := oid, side := .no, filled_size := sz,
        price := aggressive_price cfg (cfg.pair_target - inv.yes_avg_cost) ask,
        status := .matched }
      htick hsz hq rfl rfl rfl hp hfl
    simpa only [avgOf, otherSide] using h
  · intro hq hp hfl
    have h := hedge_fill_pair_cost_aux cfg icfg inv .yes ask
      { order_id := oid, side := .yes, filled_size := sz,
        price := aggressive_price cfg (cfg.pair_target - inv.no_avg_cost) ask,
        status := .matched }
      htick hsz hq rfl rfl rfl hp hfl
    simp only [avgOf, otherSide] at h
    linarith

/-- Witness for `hedge_fill_pair_cost_safety`: scenario D — excess YES at
avg 0.48 (`pair_target = 0.99`), empty NO side, ask 0.49; sanity values:
ceiling 0.51, bid 0.489; a 2-share fill keeps 0.48 + 0.489 ≤ 0.99. -/
theorem hedge_fill_pair_cost_safety_witness :
    (applyFills InventoryConfig.default
        [{ order_id := "d", side := .yes, filled_size := 10, price := 48/100,
           status := .matched }]).no_qty = 0 ∧
    (apply_fill InventoryConfig.default
      (applyFills InventoryConfig.default
        [{ order_id := "d", side := .yes, filled_size := 10, price := 48/100,
           status := .matched }])
      { order_id := "w", side := .no, filled_size := 2,
        price := aggressive_price c1Cfg
          (c1Cfg.pair_target -
            (applyFills InventoryConfig.default
              [{ order_id := "d", side := .yes, filled_size := 10, price := 48/100,
                 status := .matched }]).yes_avg_cost) (49/100),
        status := .matched }).yes_avg_cost +
    (apply_fill InventoryConfig.default
      (applyFills InventoryConfig.default
        [{ order_id := "d", side := .yes, filled_size := 10, price := 48/100,
           status := .matched }])
      { order_id := "w", side := .no, filled_size := 2,
        price := aggressive_price c1Cfg
          (c1Cfg.pair_target -
            (applyFills InventoryConfig.default
              [{ order_id := "d", side := .yes, filled_size := 10, price := 48/100,
                 status := .matched }]).yes_avg_cost) (49/100),
        status := .matched }).no_avg_cost ≤ c1Cfg.pair_target :=
  ⟨by norm_num [applyFills, apply_fill, can_open, InventoryConfig.default,
      InventoryState.default, eps64, max_def],
   (hedge_fill_pair_cost_safety c1Cfg InventoryConfig.default
      (applyFills InventoryConfig.default
        [{ order_id := "d", side := .yes, filled_size := 10, price := 48/100,
           status := .matched }]) (49/100) 2 "w"
      (by norm_num [c1Cfg]) (by norm_num)).1
    (by norm_num [applyFills, apply_fill, can_open, InventoryConfig.default,
      InventoryState.default, eps64, max_def])
    (by norm_num [applyFills, apply_fill, can_open, InventoryConfig.default,
      InventoryState.default, eps64, max_def, aggressive_price, safe_price,
      c1Cfg, min_def])
    (by norm_num [applyFills, apply_fill, can_open, InventoryConfig.default,
      InventoryState.default, eps64, max_def, floorTick, c1Cfg, min_def])⟩

-- ─────────────────────────────────────────────────────────
-- C7 — dedup idempotence
-- ─────────────────────────────────────────────────────────

theorem remember_mem (cache : List String) (key : String) (h : key ∈ cache) :
    remember cache key = (false, cache) := by
  simp [remember, h]

theorem remember_not_mem (cache : List String) (key : String) (h : key ∉ cache) :
    remember cache key = (true, key :: cache) := by
  simp [remember, h]

theorem maker_loop_cons_skip (cfg : UserWsConfig) (status : FillStatus)
    (trade_id evt : String) (mo : MakerOrder) (rest : List MakerOrder)
    (c : List String) (h : maker_decision cfg status trade_id evt mo = .skip) :
    maker_loop cfg status trade_id evt (mo :: rest) c =
      maker_loop cfg status trade_id evt rest c := by
  rw [maker_loop, h]

theorem maker_loop_cons_dup (cfg : UserWsConfig) (status : FillStatus)
    (trade_id evt : String) (mo : MakerOrder) (rest : List MakerOrder)
    (c : List String) (key : String) (fill : FillEvent)
    (h : maker_decision cfg status trade_id evt mo = .check key fill)
    (hk : key ∈ c) :
    maker_loop cfg status trade_id evt (mo :: rest) c =
      maker_loop cfg status trade_id evt rest c := by
  rw [maker_loop, h]
  dsimp only
  rw [remember_mem c key hk]
  simp

theorem maker_loop_cons_fresh (cfg : UserWsConfig) (status : FillStatus)
    (trade_id evt : String) (mo : MakerOrder) (rest : List MakerOrder)
    (c : List String) (key : String) (fill : FillEvent)
    (h : maker_decision cfg status trade_id evt mo = .check key fill)
    (hk : key ∉ c) :
    maker_loop cfg status trade_id evt (mo :: rest) c =
      (fill :: (maker_loop cfg status trade_id evt rest (key :: c)).1,
       (maker_loop cfg status trade_id evt rest (key :: c)).2) := by
  rw [maker_loop, h]
  dsimp only
  rw [remember_not_mem c key hk]
  simp

theorem maker_loop_replay (cfg : UserWsConfig) (status : FillStatus)
    (trade_id evt : String) :
    ∀ (mos : List MakerOrder) (c : List String),
      c ⊆ (maker_loop cfg status trade_id evt mos c).2 ∧
      ∀ d, (maker_loop cfg status trade_id evt mos c).2 ⊆ d →
        maker_loop cfg status trade_id evt mos d = ([], d) := by
  intro mos
  induction mos with
  | nil => intro c; exact ⟨fun k hk => hk, fun d _ => rfl⟩
  | cons mo rest ih =>
    intro c
    cases hdec : maker_decision cfg status trade_id evt mo with
    | skip =>
      rw [maker_loop_cons_skip cfg status trade_id evt mo rest c hdec]
      refine ⟨(ih c).1, ?_⟩
      intro d hd
      rw [maker_loop_cons_skip cfg status trade_id evt mo rest d hdec]
      exact (ih c).2 d hd
    | check key fill =>
      by_cases hk : key ∈ c
      · rw [maker_loop_cons_dup cfg status trade_id evt mo rest c key fill hdec hk]
        refine ⟨(ih c).1, ?_⟩
        intro d hd
        have hkd : key ∈ d := hd ((ih c).1 hk)
        rw [maker_loop_cons_dup cfg status trade_id evt mo rest d key fill hdec hkd]
        exact (ih c).2 d hd
      · rw [maker_loop_cons_fresh cfg status trade_id evt mo rest c key fill hdec hk]
        refine ⟨?_, ?_⟩
        · intro x hx
          exact (ih (key :: c)).1 (List.mem_cons_of_mem key hx)
        · intro d hd
          have hkd : key ∈ d := hd ((ih (key :: c)).1 (List.mem_cons_self key c))
          rw [maker_loop_cons_dup cfg status trade_id evt mo rest d key fill hdec hkd]
          exact (ih (key :: c)).2 d hd

theorem parse_maker_fills_replay (cfg : UserWsConfig) (msg : TradeMsg)
    (status : FillStatus) (c : List String) :
    c ⊆ (parse_maker_fills cfg msg status c).2 ∧
    ∀ d, (parse_maker_fills cfg msg status c).2 ⊆ d →
      parse_maker_fills cfg msg status d = ([], d) := by
  unfold parse_maker_fills
  cases msg.maker_orders with
  | none => exact ⟨fun k hk => hk, fun d _ => rfl⟩
  | some mos =>
    dsimp only
    exact ⟨(maker_loop_replay cfg status _ _ mos c).1,
      fun d hd => (maker_loop_replay cfg status _ _ mos c).2 d hd⟩

theorem parse_taker_none (cfg : UserWsConfig) (msg : TradeMsg)
    (status : FillStatus) (c : List String)
    (h : taker_decision cfg msg status = none) :
    parse_taker_fill cfg msg status c = (none, c) := by
  rw [parse_taker_fill, h]

theorem parse_taker_dup (cfg : UserWsConfig) (msg : TradeMsg)
    (status : FillStatus) (c : List String) (key : String) (fill : FillEvent)
    (h : taker_decision cfg msg status = some (key, fill)) (hk : key ∈ c) :
    parse_taker_fill cfg msg status c = (none, c) := by
  rw [parse_taker_fill, h]
  dsimp only
  rw [remember_mem c key hk]
  simp

theorem parse_taker_fresh (cfg : UserWsConfig) (msg : TradeMsg)
    (status : FillStatus) (c : List String) (key : String) (fill : FillEvent)
    (h : taker_decision cfg msg status = some (key, fill)) (hk : key ∉ c) :
    parse_taker_fill cfg msg status c = (some fill, key :: c) := by
  rw [parse_taker_fill, h]
  dsimp only
  rw [remember_not_mem c key hk]
  simp

theorem parse_taker_fill_replay (cfg : UserWsConfig) (msg : TradeMsg)
    (status : FillStatus) (c : List String) :
    c ⊆ (parse_taker_fill cfg msg status c).2 ∧
    ∀ d, (parse_taker_fill cfg msg status c).2 ⊆ d →
      parse_taker_fill cfg msg status d = (none, d) := by
  cases hdec : taker_decision cfg msg status with
  | none =>
    rw [parse_taker_none cfg msg status c hdec]
    refine ⟨fun k hk => hk, fun d _ => parse_taker_none cfg msg status d hdec⟩
  | some kf =>
    obtain ⟨key, fill⟩ := kf
    by_cases hk : key ∈ c
    · rw [parse_taker_dup cfg msg status c key fill hdec hk]
      refine ⟨fun k hk => hk, fun d hd => ?_⟩
      exact parse_taker_dup cfg msg status d key fill hdec (hd hk)
    · rw [parse_taker_fresh cfg msg status c key fill hdec hk]
      refine ⟨fun x hx => List.mem_cons_of_mem key hx, fun d hd => ?_⟩
      exact parse_taker_dup cfg msg status d key fill hdec
        (hd (List.mem_cons_self key c))

theorem parse_trade_event_replay (cfg : UserWsConfig) (msg : TradeMsg)
    (c : List String) :
    c ⊆ (parse_trade_event cfg msg c).2 ∧
    ∀ d, (parse_trade_event cfg msg c).2 ⊆ d →
      parse_trade_event cfg msg d = ([], d) := by
  unfold parse_trade_event
  dsimp only
  split
  · exact ⟨fun k hk => hk, fun d _ => rfl⟩
  · cases hst : parse_status (msg.status.getD "UNKNOWN") with
    | none => exact ⟨fun k hk => hk, fun d _ => rfl⟩
    | some status =>
      dsimp only
      split
      · exact ⟨(parse_maker_fills_replay cfg msg status c).1,
          fun d hd => (parse_maker_fills_replay cfg msg status c).2 d hd⟩
      · have h := parse_taker_fill_replay cfg msg status c
        refine ⟨?_, ?_⟩
        · cases hp : parse_taker_fill cfg msg status c with
          | mk fill? cache' =>
            cases fill? <;> simpa [hp] using h.1
        · intro d hd
          have hd' : (parse_taker_fill cfg msg status c).2 ⊆ d := by
            cases hp : parse_taker_fill cfg msg status c with
            | mk fill? cache' =>
              cases fill? <;> simp [hp] at hd <;> simpa [hp] using hd
          rw [h.2 d hd']

theorem runMsgs_replay (cfg : UserWsConfig) :
    ∀ (msgs : List TradeMsg) (c : List String),
      c ⊆ (runMsgs cfg msgs c).2 ∧
      ∀ d, (runMsgs cfg msgs c).2 ⊆ d → runMsgs cfg msgs d = ([], d) := by
  intro msgs
  induction msgs with
  | nil => intro c; exact ⟨fun k hk => hk, fun d _ => rfl⟩
  | cons m rest ih =>
    intro c
    have h1 := parse_trade_event_replay cfg m c
    have h2 := ih (parse_trade_event cfg m c).2
    refine ⟨fun k hk => h2.1 (h1.1 hk), ?_⟩
    intro d hd
    have hfinal : (parse_trade_event cfg m c).2 ⊆ d := by
      intro k hk
      exact hd (h2.1 hk)
    rw [runMsgs, h1.2 d hfinal]
    dsimp only
    rw [h2.2 d hd]
    rfl

theorem runMsgs_append (cfg : UserWsConfig) :
    ∀ (xs ys : List TradeMsg) (c : List String),
      runMsgs cfg (xs ++ ys) c =
        ((runMsgs cfg xs c).1 ++ (runMsgs cfg ys (runMsgs cfg xs c).2).1,
         (runMsgs cfg ys (runMsgs cfg xs c).2).2) := by
  intro xs
  induction xs with
  | nil => intro ys c; simp [runMsgs]
  | cons x rest ih =>
    intro ys c
    rw [List.cons_append, runMsgs, runMsgs, ih]
    simp

/-- C7: replaying a contiguous initial segment of the message stream through
the surviving dedup cache (within TTL and capacity) emits no additional
fills: the overall emitted multiset is unchanged by the replay. -/
theorem dedup_idempotent_replay (cfg : UserWsConfig) (p rest : List TradeMsg)
    (c0 : List String) :
    (runMsgs cfg p (runMsgs cfg (p ++ rest) c0).2).1 = [] ∧
    (runMsgs cfg ((p ++ rest) ++ p) c0).1 = (runMsgs cfg (p ++ rest) c0).1 := by
  have hmono1 := (runMsgs_replay cfg p c0).1
  have hmono2 := (runMsgs_replay cfg rest (runMsgs cfg p c0).2).1
  have hfinal : (runMsgs cfg p c0).2 ⊆ (runMsgs cfg (p ++ rest) c0).2 := by
    rw [runMsgs_append cfg p rest c0]
    exact hmono2
  have hreplay := (runMsgs_replay cfg p c0).2 (runMsgs cfg (p ++ rest) c0).2 hfinal
  refine ⟨by rw [hreplay], ?_⟩
  rw [runMsgs_append cfg (p ++ rest) p c0, hreplay]
  simp

-- ─────────────────────────────────────────────────────────
-- C8 — dedup key composition
-- ─────────────────────────────────────────────────────────

/-- C8 (counterexample): the *taker*-path dedup key omits the order id —
it is `tid:{trade_id}:{bucket}` — so two taker fills sharing trade id `t1`
but with different `taker_order_id`s are merged: only the first is
emitted. -/
theorem taker_dedup_key_counterexample :
    (taker_decision uwCfg (takerMsg "o1") .matched).map Prod.fst =
      some (taker_dedup_key "t1" "SUCCESS") ∧
    (taker_decision uwCfg (takerMsg "o2") .matched).map Prod.fst =
      some (taker_dedup_key "t1" "SUCCESS") ∧
    (runMsgs uwCfg [takerMsg "o1", takerMsg "o2"] []).1 =
      [{ order_id := "o1", side := .yes, filled_size := 2, price := 1,
         status := .matched }] := by
  refine ⟨by decide, by decide, by decide⟩

/-- C8 (amended): with a non-empty trade-level id the *maker*-path dedup
key is `tid:{trade_id}:mo:{order_id}:{bucket}` (so distinct maker order ids
are never merged, and Matched/Confirmed collapse into one SUCCESS bucket),
but the *taker*-path key is `tid:{trade_id}:{bucket}` with no order id
(so distinct taker order ids sharing a trade id are merged). -/
theorem dedup_key_composition :
    (∀ (cfg : UserWsConfig) (status : FillStatus) (tid evt : String)
      (mo : MakerOrder) (key : String) (fill : FillEvent), tid ≠ "" →
      maker_decision cfg status tid evt mo = .check key fill →
      key = maker_dedup_key tid fill.order_id (dedup_bucket status)) ∧
    (∀ (cfg : UserWsConfig) (msg : TradeMsg) (status : FillStatus)
      (key : String) (fill : FillEvent), msg.id.getD "" ≠ "" →
      taker_decision cfg msg status = some (key, fill) →
      key = taker_dedup_key (msg.id.getD "") (dedup_bucket status)) ∧
    (dedup_bucket .matched = "SUCCESS" ∧ dedup_bucket .confirmed = "SUCCESS" ∧
      dedup_bucket .failed = "FAILED") ∧
    (runMsgs uwCfg [makerMsg "MATCHED" [ownMakerOrder "o1", ownMakerOrder "o2"]]
        []).1.length = 2 ∧
    (runMsgs uwCfg [makerMsg "MATCHED" [ownMakerOrder "o1"],
        makerMsg "CONFIRMED" [ownMakerOrder "o1"]] []).1.length = 1 := by
  refine ⟨?_, ?_, ⟨rfl, rfl, rfl⟩, by decide, by decide⟩
  · intro cfg status tid evt mo key fill htid h
    unfold maker_decision at h
    dsimp only at h
    rw [if_pos htid] at h
    repeat' split at h
    all_goals
      first
        | exact MakerDecision.noConfusion h
        | (injection h with h1 h2
           subst h1
           subst h2
           rfl)
  · intro cfg msg status key fill htid h
    unfold taker_decision at h
    dsimp only at h
    repeat' split at h
    all_goals
      first
        | exact Option.noConfusion h
        | (injection h with h1
           injection h1 with h2 h3
           subst h2
           rfl)

/-- Witness for `dedup_key_composition`: the concrete maker order `o1` under
trade id `t1` gets key `tid:t1:mo:o1:SUCCESS`, and the concrete taker
message gets key `tid:t1:SUCCESS`. -/
theorem dedup_key_composition_witness :
    "tid:t1:mo:o1:SUCCESS" =
      maker_dedup_key "t1"
        ({ order_id := "o1", side := Side.yes, filled_size := 2, price := 1,
           status := FillStatus.matched } : FillEvent).order_id
        (dedup_bucket .matched) ∧
    "tid:t1:SUCCESS" =
      taker_dedup_key ((takerMsg "o1").id.getD "") (dedup_bucket .matched) :=
  ⟨dedup_key_composition.1 uwCfg .matched "t1" "evt=none" (ownMakerOrder "o1")
      "tid:t1:mo:o1:SUCCESS"
      { order_id := "o1", side := .yes, filled_size := 2, price := 1,
        status := .matched }
      (by decide) (by decide),
   dedup_key_composition.2.1 uwCfg (takerMsg "o1") .matched "tid:t1:SUCCESS"
      { order_id := "o1", side := .yes, filled_size := 2, price := 1,
        status := .matched }
      (by decide) (by decide)⟩

-- ─────────────────────────────────────────────────────────
-- C9 — one logical bid per side
-- ─────────────────────────────────────────────────────────

theorem ordersOf_withOrders (st : ExecState) (s : Side)
    (l : List (String × ℚ)) (side : Side) :
    ordersOf (withOrders st s l) side = if side = s then l else ordersOf st side := by
  cases s <;> cases side <;> simp [withOrders, ordersOf]

theorem removeKey_length_le (k : String) (l : List (String × ℚ)) :
    (removeKey k l).length ≤ l.length :=
  List.length_filter_le _ l

theorem setRemaining_length (k : String) (v : ℚ) (l : List (String × ℚ)) :
    (setRemaining k v l).length = l.length :=
  List.length_map l _

theorem handle_fill_notification_length (st : ExecState) (f : FillEvent)
    (side : Side) :
    (ordersOf (handle_fill_notification st f) side).length ≤
      (ordersOf st side).length := by
  unfold handle_fill_notification
  split
  · rw [ordersOf_withOrders]
    split
    · next h => rw [h]; exact removeKey_length_le _ _
    · exact le_refl _
  · dsimp only
    split
    · exact le_refl _
    · split
      · rw [ordersOf_withOrders]
        split
        · next h => rw [h]; exact removeKey_length_le _ _
        · exact le_refl _
      · rw [ordersOf_withOrders]
        split
        · next h => rw [h, setRemaining_length]
        · exact le_refl _

theorem removeEverywhere_length (st : ExecState) (oid : String) (side : Side) :
    (ordersOf (removeEverywhere st oid) side).length ≤ (ordersOf st side).length := by
  cases side <;> exact removeKey_length_le _ _

theorem handle_cancel_order_length (cfg : ExecutorConfig) (st : ExecState)
    (oid : String) (env : ExecEnv) (side : Side) :
    (ordersOf (handle_cancel_order cfg st oid env).1 side).length ≤
      (ordersOf st side).length := by
  unfold handle_cancel_order
  split
  · exact removeEverywhere_length st oid side
  · split
    · exact removeEverywhere_length st oid side
    · exact le_refl _

theorem cancel_fold_length (cfg : ExecutorConfig) (env : ExecEnv) :
    ∀ (ids : List String) (st : ExecState) (side : Side),
      (ordersOf (ids.foldl (fun s id => (handle_cancel_order cfg s id env).1) st)
        side).length ≤ (ordersOf st side).length := by
  intro ids
  induction ids with
  | nil => intro st side; exact le_refl _
  | cons id rest ih =>
    intro st side
    exact le_trans (ih _ side) (handle_cancel_order_length cfg st id env side)

theorem handle_cancel_side_length (cfg : ExecutorConfig) (st : ExecState)
    (s : Side) (env : ExecEnv) (side : Side) :
    (ordersOf (handle_cancel_side cfg st s env) side).length ≤
      (ordersOf st side).length :=
  cancel_fold_length cfg env _ st side

theorem handle_cancel_all_length (cfg : ExecutorConfig) (st : ExecState)
    (env : ExecEnv) (side : Side) :
    (ordersOf (handle_cancel_all cfg st env) side).length ≤
      (ordersOf st side).length := by
  unfold handle_cancel_all
  split
  · cases side <;> simp [ordersOf]
  · split
    · cases side <;> simp [ordersOf]
    · exact cancel_fold_length cfg env _ st side

/-- On the live path, a placement onto a side that still tracks an open
order is refused: the state is unchanged and `OrderFailed` is reported. -/
theorem handle_place_bid_refuses (cfg : ExecutorConfig) (st : ExecState)
    (side : Side) (price size : ℚ) (reason : BidReason) (env : ExecEnv)
    (hdry : cfg.dry_run = false) (hcl : cfg.has_client = true)
    (hne : ordersOf st side ≠ []) :
    handle_place_bid cfg st side price size reason env =
      (st, [.orderFailed side]) := by
  unfold handle_place_bid
  rw [hdry, hcl]
  cases hl : ordersOf st side with
  | nil => exact absurd hl hne
  | cons a l => simp [hl]

theorem handle_place_bid_live_empty (cfg : ExecutorConfig) (st : ExecState)
    (side : Side) (price size : ℚ) (reason : BidReason) (env : ExecEnv)
    (hdry : cfg.dry_run = false) (hcl : cfg.has_client = true)
    (hemp : ordersOf st side = []) :
    handle_place_bid cfg st side price size reason env =
      match env.place_result with
      | some oid => (withOrders st side (insertOrder oid size (ordersOf st side)), [])
      | none => (st, [.orderFailed side]) := by
  unfold handle_place_bid
  rw [hdry, hcl, hemp]
  simp

theorem handle_place_bid_live_length (cfg : ExecutorConfig) (st : ExecState)
    (side : Side) (price size : ℚ) (reason : BidReason) (env : ExecEnv)
    (hdry : cfg.dry_run = false) (hcl : cfg.has_client = true) (s : Side)
    (hs : (ordersOf st s).length ≤ 1) :
    (ordersOf (handle_place_bid cfg st side price size reason env).1 s).length ≤ 1 := by
  by_cases hne : ordersOf st side = []
  · rw [handle_place_bid_live_empty cfg st side price size reason env hdry hcl hne]
    cases hres : env.place_result with
    | none => exact hs
    | some oid =>
      dsimp only
      rw [ordersOf_withOrders]
      split
      · next h => rw [hne]; simp [insertOrder, removeKey]
      · exact hs
  · rw [handle_place_bid_refuses cfg st side price size reason env hdry hcl hne]
    exact hs

theorem execStep_live_length (cfg : ExecutorConfig) (st : ExecState)
    (ev : ExecEvent) (hdry : cfg.dry_run = false) (hcl : cfg.has_client = true)
    (s : Side) (hs : (ordersOf st s).length ≤ 1) :
    (ordersOf (execStep cfg st ev).1 s).length ≤ 1 := by
  cases ev with
  | fill f => exact le_trans (handle_fill_notification_length st f s) hs
  | cmd c env =>
    cases c with
    | placePostOnlyBid side price size reason =>
      exact handle_place_bid_live_length cfg st side price size reason env hdry hcl s hs
    | cancelOrder oid reason =>
      exact le_trans (handle_cancel_order_length cfg st oid env s) hs
    | cancelSide side reason =>
      exact le_trans (handle_cancel_side_length cfg st side env s) hs
    | cancelAll reason =>
      exact le_trans (handle_cancel_all_length cfg st env s) hs

theorem runExec_live_length_aux (cfg : ExecutorConfig)
    (hdry : cfg.dry_run = false) (hcl : cfg.has_client = true) :
    ∀ (events : List ExecEvent) (st : ExecState) (s : Side),
      (ordersOf st s).length ≤ 1 →
      (ordersOf (runExec cfg events st) s).length ≤ 1 := by
  intro events
  induction events with
  | nil => intro st s hs; exact hs
  | cons ev rest ih =>
    intro st s hs
    exact ih _ s (execStep_live_length cfg st ev hdry hcl s hs)

/-- C9 (counterexample): the dry-run path of `handle_place_bid` inserts its
fake tracked order *before* the non-empty-side refusal guard, so two
consecutive dry-run placements on the same side (with distinct clock
nonces) stack two entries in `open_orders[Yes]`. -/
theorem dry_run_stacking_counterexample :
    (runExec dryExecCfg
      [.cmd (.placePostOnlyBid .yes 1 2 .provide) (execEnv "1" none),
       .cmd (.placePostOnlyBid .yes 1 2 .provide) (execEnv "2" none)]
      ExecState.init).yes_orders.length = 2 := by
  decide

/-- C9 (amended): on the *live* path (`dry_run = false` with a client),
`handle_place_bid` refuses to place on a side whose open-order map is
non-empty — emitting `OrderFailed` and leaving the state unchanged — and
each side's map holds at most one entry after any event sequence from the
initial state.  The dry-run path bypasses the guard and can stack entries
(see the counterexample). -/
theorem one_logical_bid_per_side (cfg : ExecutorConfig)
    (hdry : cfg.dry_run = false) (hcl : cfg.has_client = true) :
    (∀ (st : ExecState) (side : Side) (price size : ℚ) (reason : BidReason)
      (env : ExecEnv), ordersOf st side ≠ [] →
      handle_place_bid cfg st side price size reason env =
        (st, [.orderFailed side])) ∧
    (∀ (events : List ExecEvent) (side : Side),
      (ordersOf (runExec cfg events ExecState.init) side).length ≤ 1) := by
  refine ⟨?_, ?_⟩
  · intro st side price size reason env hne
    exact handle_place_bid_refuses cfg st side price size reason env hdry hcl hne
  · intro events side
    refine runExec_live_length_aux cfg hdry hcl events ExecState.init side ?_
    cases side <;> simp [ExecState.init, ordersOf]

/-- Witness for `one_logical_bid_per_side`: a live session that places,
takes a partial fill, cancels the side and places again still holds at most
one YES entry. -/
theorem one_logical_bid_per_side_witness :
    (ordersOf (runExec liveExecCfg
      [.cmd (.placePostOnlyBid .yes 1 2 .provide) (execEnv "1" (some "o1")),
       .fill { order_id := "o1", side := .yes, filled_size := 1, price := 1,
               status := .matched },
       .cmd (.cancelSide .yes .reprice) (execEnv "2" none),
       .cmd (.placePostOnlyBid .yes 1 2 .provide) (execEnv "3" (some "o2"))]
      ExecState.init) Side.yes).length ≤ 1 :=
  (one_logical_bid_per_side liveExecCfg rfl rfl).2
    [.cmd (.placePostOnlyBid .yes 1 2 .provide) (execEnv "1" (some "o1")),
     .fill { order_id := "o1", side := .yes, filled_size := 1, price := 1,
             status := .matched },
     .cmd (.cancelSide .yes .reprice) (execEnv "2" none),
     .cmd (.placePostOnlyBid .yes 1 2 .provide) (execEnv "3" (some "o2"))]
    Side.yes

end PolymarketMM
